import Mathlib

/-!
Verification of the European Political Donations Tracker (`app.py`).

The development shallowly embeds the data model and the operations of the
program: Python strings are modelled as `List Char`, pandas data frames as
lists of indexed rows of typed cells, numeric amounts as `Rat`.  Each
definition is translated from the corresponding function of `app.py`;
library primitives (`str.strip`, `str.replace`, `float`, the regular
expression fragments used by the scrapers, pandas column access and boolean
masks) are modelled for the fragment the program exercises, as documented on
each definition.
-/

set_option autoImplicit false

namespace Croesus

/-! ### Python string primitives -/

/-- Python `str.isspace` for the ASCII whitespace characters
(the fragment exercised by the queries and CSV/HTML cell texts). -/
def pyIsSpace (c : Char) : Bool :=
  c = ' ' || c = '\t' || c = '\n' || c = '\r' || c = '\x0b' || c = '\x0c'

/-- Python `str.strip()` (ASCII whitespace fragment). -/
def pyStrip (l : List Char) : List Char :=
  ((l.dropWhile pyIsSpace).reverse.dropWhile pyIsSpace).reverse

/-- Python `str.upper()` (ASCII fragment, via `Char.toUpper`). -/
def pyUpper (l : List Char) : List Char :=
  l.map Char.toUpper

/-- Python `str.lower()` (ASCII fragment, via `Char.toLower`). -/
def pyLower (l : List Char) : List Char :=
  l.map Char.toLower

/-- Python substring containment `needle in haystack`. -/
def strIn (needle : List Char) : List Char → Bool
  | [] => needle.isEmpty
  | c :: rest => needle.isPrefixOf (c :: rest) || strIn needle rest

/-- Recursion engine of `pyReplace`; the fuel (at least the input length)
only makes the definition structurally recursive, see
`pyReplace_cons` for the recursion it implements. -/
def pyReplaceF : Nat → List Char → List Char → List Char → List Char
  | 0, _, _, l => l
  | fuel + 1, needle, repl, l =>
    match l with
    | [] => []
    | c :: rest =>
      if needle ≠ [] ∧ needle.isPrefixOf (c :: rest) then
        repl ++ pyReplaceF fuel needle repl ((c :: rest).drop needle.length)
      else
        c :: pyReplaceF fuel needle repl rest

/-- Python `str.replace(needle, repl)`: replaces every occurrence,
left to right, non-overlapping.  (The program only replaces non-empty
needles; an empty needle is returned unchanged here.) -/
def pyReplace (needle repl l : List Char) : List Char :=
  pyReplaceF l.length needle repl l

theorem pyReplaceF_nil (fuel : Nat) (needle repl : List Char) :
    pyReplaceF fuel needle repl [] = [] := by
  cases fuel <;> rfl

theorem pyReplaceF_irrel (f1 : Nat) (needle repl : List Char) :
    ∀ (f2 : Nat) (l : List Char), l.length ≤ f1 → l.length ≤ f2 →
      pyReplaceF f1 needle repl l = pyReplaceF f2 needle repl l := by
  induction f1 with
  | zero =>
    intro f2 l h1 _
    have : l = [] := List.length_eq_zero.mp (Nat.le_zero.mp h1)
    subst this
    rw [pyReplaceF_nil, pyReplaceF_nil]
  | succ a ih =>
    intro f2 l h1 h2
    match l with
    | [] => rw [pyReplaceF_nil, pyReplaceF_nil]
    | c :: rest =>
      match f2 with
      | 0 => simp at h2
      | b + 1 =>
        show pyReplaceF (a + 1) needle repl (c :: rest)
            = pyReplaceF (b + 1) needle repl (c :: rest)
        rw [pyReplaceF, pyReplaceF]
        by_cases hpre : needle ≠ [] ∧ needle.isPrefixOf (c :: rest)
        · rw [if_pos hpre, if_pos hpre]
          have hn : 0 < needle.length := List.length_pos.mpr hpre.1
          have hd : ((c :: rest).drop needle.length).length ≤ a := by
            simp only [List.length_drop, List.length_cons]
            simp only [List.length_cons] at h1
            omega
          have hd2 : ((c :: rest).drop needle.length).length ≤ b := by
            simp only [List.length_drop, List.length_cons]
            simp only [List.length_cons] at h2
            omega
          rw [ih _ _ hd hd2]
        · rw [if_neg hpre, if_neg hpre]
          have hr : rest.length ≤ a := by
            simp only [List.length_cons] at h1
            omega
          have hr2 : rest.length ≤ b := by
            simp only [List.length_cons] at h2
            omega
          rw [ih _ _ hr hr2]

/-- The recursion `pyReplace` implements, as in the source semantics: a
match of the needle is replaced and skipped, otherwise one character is
kept. -/
theorem pyReplace_cons (needle repl : List Char) (c : Char) (rest : List Char) :
    pyReplace needle repl (c :: rest)
      = if needle ≠ [] ∧ needle.isPrefixOf (c :: rest) then
          repl ++ pyReplace needle repl ((c :: rest).drop needle.length)
        else
          c :: pyReplace needle repl rest := by
  show pyReplaceF (rest.length + 1) needle repl (c :: rest) = _
  rw [pyReplaceF]
  by_cases hpre : needle ≠ [] ∧ needle.isPrefixOf (c :: rest)
  · rw [if_pos hpre, if_pos hpre]
    have hn : 0 < needle.length := List.length_pos.mpr hpre.1
    rw [pyReplaceF_irrel _ _ _ ((c :: rest).drop needle.length).length _
      (by simp only [List.length_drop, List.length_cons]; omega) le_rfl]
    rfl
  · rw [if_neg hpre, if_neg hpre]
    rw [pyReplaceF_irrel _ _ _ rest.length _ (by omega) le_rfl]
    rfl

/-- Python `str.split(sep)` for a single-character separator: splits at
every occurrence, keeping empty pieces (`"".split(c) = [""]`). -/
def splitOn (sep : Char) : List Char → List (List Char)
  | [] => [[]]
  | c :: rest =>
    if c = sep then [] :: splitOn sep rest
    else
      match splitOn sep rest with
      | [] => [[c]]
      | p :: ps => (c :: p) :: ps

/-- Base-10 value of a list of digit characters. -/
def digitsVal (l : List Char) : Nat :=
  l.foldl (fun a c => a * 10 + (c.toNat - 48)) 0

/-- Python `float(s)` for the plain decimal fragment the program feeds it
(optional sign, digits with at most one decimal point; exponents,
underscores, `inf`/`nan` are outside the exercised fragment and rejected).
Returns `none` where Python raises `ValueError`. -/
def pyFloat (l : List Char) : Option Rat :=
  let s := pyStrip l
  let signed : Bool × List Char :=
    if s.head? = some '-' then (true, s.tail)
    else if s.head? = some '+' then (false, s.tail)
    else (false, s)
  let intPart := signed.2.takeWhile Char.isDigit
  let rest := signed.2.dropWhile Char.isDigit
  let mag? : Option Rat :=
    match rest with
    | [] => if intPart.isEmpty then none else some (digitsVal intPart : Rat)
    | '.' :: frac =>
      if frac.all Char.isDigit && !(intPart.isEmpty && frac.isEmpty) then
        some ((digitsVal intPart : Rat) + (digitsVal frac : Rat) / (10 : Rat) ^ frac.length)
      else none
    | _ => none
  mag?.map (fun v => if signed.1 then -v else v)

/-- Python `int(s)` for the decimal fragment the program feeds it
(optional sign, digits).  Returns `none` where Python raises `ValueError`. -/
def pyInt (l : List Char) : Option Int :=
  let s := pyStrip l
  let signed : Bool × List Char :=
    if s.head? = some '-' then (true, s.tail)
    else if s.head? = some '+' then (false, s.tail)
    else (false, s)
  if signed.2 ≠ [] && signed.2.all Char.isDigit then
    some (if signed.1 then -(digitsVal signed.2 : Int) else (digitsVal signed.2 : Int))
  else none

/-! ### Boolean query grammar (`parse_boolean_query`, `is_boolean_query`)

`parse_boolean_query` (app.py, lines 1800-1850) strips the query, returns a
`NOT` node when the uppercased query starts with `"NOT "`, otherwise scans
for the separator `" OR "` (case-insensitively), accumulating the current
segment character by character and emitting the stripped segment at each
separator; with more than one non-empty segment the result is an `OR` node
over the recursively parsed segments, otherwise a `TERM` node. -/

/-- The parsed boolean query: the dict returned by `parse_boolean_query`
with `'type'` equal to `'TERM'`, `'OR'` or `'NOT'`. -/
inductive BQuery where
  | TERM (term : List Char)
  | OR (terms : List BQuery)
  | NOT (term : List Char)

/-- The test `query_upper[i:i+4] == ' OR '` of the splitting loop: the next
four characters, uppercased, spell the separator (a slice shorter than four
characters never compares equal). -/
def sepHead (l : List Char) : Bool :=
  match l with
  | c1 :: c2 :: c3 :: c4 :: _ =>
    c1.toUpper = ' ' && c2.toUpper = 'O' && c3.toUpper = 'R' && c4.toUpper = ' '
  | _ => false

/-- `if current.strip(): parts.append(current.strip())` — the stripped
segment, kept only when non-empty. -/
def stripPush (current : List Char) : List (List Char) :=
  if pyStrip current = [] then [] else [pyStrip current]

/-- Recursion engine of `orScan`; the fuel (at least the input length)
only makes the definition structurally recursive, see `orScan_cons`. -/
def orScanF : Nat → List Char → List Char → List (List Char) → List (List Char)
  | 0, _, current, parts => parts ++ stripPush current
  | fuel + 1, cs, current, parts =>
    match cs with
    | [] => parts ++ stripPush current
    | c :: rest =>
      if sepHead (c :: rest) then
        orScanF fuel (rest.drop 3) [] (parts ++ stripPush current)
      else
        orScanF fuel rest (current ++ [c]) parts

/-- The `while` loop of `parse_boolean_query` that splits the query at every
occurrence of `' OR '` (checked against the uppercased query): at a
separator the stripped current segment is emitted and four characters are
skipped, otherwise one character is moved into the current segment. -/
def orScan (cs current : List Char) (parts : List (List Char)) : List (List Char) :=
  orScanF cs.length cs current parts

theorem orScanF_nil (fuel : Nat) (current : List Char) (parts : List (List Char)) :
    orScanF fuel [] current parts = parts ++ stripPush current := by
  cases fuel <;> rfl

theorem orScanF_irrel (f1 : Nat) :
    ∀ (f2 : Nat) (cs current : List Char) (parts : List (List Char)),
      cs.length ≤ f1 → cs.length ≤ f2 →
      orScanF f1 cs current parts = orScanF f2 cs current parts := by
  induction f1 with
  | zero =>
    intro f2 cs current parts h1 _
    have : cs = [] := List.length_eq_zero.mp (Nat.le_zero.mp h1)
    subst this
    rw [orScanF_nil, orScanF_nil]
  | succ a ih =>
    intro f2 cs current parts h1 h2
    match cs with
    | [] => rw [orScanF_nil, orScanF_nil]
    | c :: rest =>
      match f2 with
      | 0 => simp at h2
      | b + 1 =>
        rw [orScanF, orScanF]
        simp only [List.length_cons] at h1 h2
        by_cases hsep : sepHead (c :: rest) = true
        · rw [if_pos hsep, if_pos hsep]
          have hd : (rest.drop 3).length ≤ a := by
            simp only [List.length_drop]
            omega
          have hd2 : (rest.drop 3).length ≤ b := by
            simp only [List.length_drop]
            omega
          rw [ih _ _ _ _ hd hd2]
        · rw [if_neg hsep, if_neg hsep]
          rw [ih b rest (current ++ [c]) parts (by omega) (by omega)]

/-- The step the splitting loop makes on a non-empty remainder. -/
theorem orScan_cons (c : Char) (rest current : List Char) (parts : List (List Char)) :
    orScan (c :: rest) current parts
      = if sepHead (c :: rest) then
          orScan (rest.drop 3) [] (parts ++ stripPush current)
        else
          orScan rest (current ++ [c]) parts := by
  show orScanF (rest.length + 1) (c :: rest) current parts = _
  rw [orScanF]
  by_cases hsep : sepHead (c :: rest) = true
  · rw [if_pos hsep, if_pos hsep]
    exact orScanF_irrel _ _ _ _ _ (by simp only [List.length_drop]; omega) le_rfl
  · rw [if_neg hsep, if_neg hsep]
    exact orScanF_irrel _ _ _ _ _ (by omega) le_rfl

theorem orScan_nil (current : List Char) (parts : List (List Char)) :
    orScan [] current parts = parts ++ stripPush current := rfl

/-- A true separator test needs at least four remaining characters. -/
theorem sepHead_length {l : List Char} (h : sepHead l = true) : 4 ≤ l.length := by
  rcases l with _ | ⟨a, _ | ⟨b, _ | ⟨c, _ | ⟨d, tl⟩⟩⟩⟩ <;> simp_all [sepHead]

/-- Specification-side splitter: the first `' OR '` separator of the text,
as the pair of the text before it and the text after it. -/
def splitFirstOr : List Char → Option (List Char × List Char)
  | [] => none
  | c :: rest =>
    if sepHead (c :: rest) then some ([], rest.drop 3)
    else (splitFirstOr rest).map (fun p => (c :: p.1, p.2))

/-- The text after the first separator is at least four characters shorter
than the input (the separator itself is consumed). -/
theorem splitFirstOr_after_length (l before after : List Char)
    (h : splitFirstOr l = some (before, after)) : after.length + 4 ≤ l.length := by
  induction l generalizing before after with
  | nil => simp [splitFirstOr] at h
  | cons c rest ih =>
    rw [splitFirstOr] at h
    by_cases hsep : sepHead (c :: rest) = true
    · rw [if_pos hsep] at h
      have h4 := sepHead_length hsep
      obtain ⟨h1, h2⟩ := Prod.mk.injEq .. ▸ Option.some.injEq .. ▸ h
      subst h2
      simp only [List.length_cons, List.length_drop] at *
      omega
    · rw [if_neg hsep, Option.map_eq_some'] at h
      obtain ⟨⟨b', a'⟩, hp, hq⟩ := h
      obtain ⟨hq1, hq2⟩ := Prod.mk.injEq .. ▸ hq
      subst hq2
      have := ih _ _ hp
      simp only [List.length_cons]
      omega

/-- Recursion engine of `orSegments` (fuel at least the input length). -/
def orSegmentsF : Nat → List Char → List (List Char)
  | 0, l => [l]
  | fuel + 1, l =>
    match splitFirstOr l with
    | none => [l]
    | some (before, after) => before :: orSegmentsF fuel after

/-- Specification-side splitter: the segments obtained by splitting at each
occurrence of `' OR '`, left to right. -/
def orSegments (l : List Char) : List (List Char) :=
  orSegmentsF l.length l

theorem orSegmentsF_nil (fuel : Nat) : orSegmentsF fuel [] = [[]] := by
  cases fuel with
  | zero => rfl
  | succ a => rfl

theorem orSegmentsF_irrel (n : Nat) :
    ∀ (f1 f2 : Nat) (l : List Char), l.length ≤ n → l.length ≤ f1 → l.length ≤ f2 →
      orSegmentsF f1 l = orSegmentsF f2 l := by
  induction n with
  | zero =>
    intro f1 f2 l hn _ _
    have : l = [] := List.length_eq_zero.mp (Nat.le_zero.mp hn)
    subst this
    rw [orSegmentsF_nil, orSegmentsF_nil]
  | succ m ih =>
    intro f1 f2 l hn h1 h2
    match l with
    | [] => rw [orSegmentsF_nil, orSegmentsF_nil]
    | c :: tail =>
      match f1, f2 with
      | 0, _ => simp at h1
      | _, 0 => simp at h2
      | a + 1, b + 1 =>
        rw [orSegmentsF, orSegmentsF]
        match hsp : splitFirstOr (c :: tail) with
        | none => rfl
        | some (before, after) =>
          have hlen := splitFirstOr_after_length _ _ _ hsp
          simp only [List.length_cons] at hlen hn h1 h2
          show before :: orSegmentsF a after = before :: orSegmentsF b after
          rw [ih a b after (by omega) (by omega) (by omega)]

/-- The recursion `orSegments` implements: the text before the first
separator, then the segments of the text after it. -/
theorem orSegments_def (l : List Char) :
    orSegments l
      = match splitFirstOr l with
        | none => [l]
        | some (before, after) => before :: orSegments after := by
  match l with
  | [] => rfl
  | c :: tail =>
    show orSegmentsF (tail.length + 1) (c :: tail) = _
    rw [orSegmentsF]
    match hsp : splitFirstOr (c :: tail) with
    | none => rfl
    | some (before, after) =>
      have hlen := splitFirstOr_after_length _ _ _ hsp
      simp only [List.length_cons] at hlen
      show before :: orSegmentsF tail.length after = before :: orSegments after
      rw [orSegmentsF_irrel after.length tail.length after.length after le_rfl
        (by omega) le_rfl]
      rfl

/-- Stripping never lengthens a string. -/
theorem pyStrip_length_le (l : List Char) : (pyStrip l).length ≤ l.length := by
  unfold pyStrip
  calc ((l.dropWhile pyIsSpace).reverse.dropWhile pyIsSpace).reverse.length
      = ((l.dropWhile pyIsSpace).reverse.dropWhile pyIsSpace).length := by
        rw [List.length_reverse]
    _ ≤ (l.dropWhile pyIsSpace).reverse.length := (List.dropWhile_sublist _).length_le
    _ = (l.dropWhile pyIsSpace).length := by rw [List.length_reverse]
    _ ≤ l.length := (List.dropWhile_sublist _).length_le

/-- A segment emitted at most keeps the stripped current text. -/
theorem stripPush_mem_length {current p : List Char} (h : p ∈ stripPush current) :
    p.length ≤ current.length := by
  unfold stripPush at h
  split at h
  · simp at h
  · simp only [List.mem_singleton] at h
    subst h
    exact pyStrip_length_le current

/-- Every part emitted by the splitting loop is an old part or fits inside
the unscanned text together with the current segment. -/
theorem orScan_mem_length (cs current : List Char) (parts : List (List Char))
    (p : List Char) (hp : p ∈ orScan cs current parts) :
    p ∈ parts ∨ p.length ≤ current.length + cs.length := by
  have main : ∀ (fuel : Nat) (cs current : List Char) (parts : List (List Char))
      (p : List Char), cs.length ≤ fuel → p ∈ orScanF fuel cs current parts →
      p ∈ parts ∨ p.length ≤ current.length + cs.length := by
    intro fuel
    induction fuel with
    | zero =>
      intro cs current parts p h1 hp
      have : cs = [] := List.length_eq_zero.mp (Nat.le_zero.mp h1)
      subst this
      rw [orScanF_nil] at hp
      rcases List.mem_append.1 hp with h | h
      · exact Or.inl h
      · exact Or.inr (le_trans (stripPush_mem_length h) (by simp))
    | succ a ih =>
      intro cs current parts p h1 hp
      match cs with
      | [] =>
        rw [orScanF_nil] at hp
        rcases List.mem_append.1 hp with h | h
        · exact Or.inl h
        · exact Or.inr (le_trans (stripPush_mem_length h) (by simp))
      | c :: rest =>
        rw [orScanF] at hp
        simp only [List.length_cons] at h1
        by_cases hsep : sepHead (c :: rest) = true
        · rw [if_pos hsep] at hp
          rcases ih _ _ _ p (by simp only [List.length_drop]; omega) hp with hmem | hlen
          · rcases List.mem_append.1 hmem with h | h
            · exact Or.inl h
            · exact Or.inr (le_trans (stripPush_mem_length h) (by simp_arith))
          · refine Or.inr ?_
            simp only [List.length_nil, List.length_drop, List.length_cons] at hlen ⊢
            omega
        · rw [if_neg hsep] at hp
          rcases ih _ _ _ p (by omega) hp with hmem | hlen
          · exact Or.inl hmem
          · refine Or.inr ?_
            simp only [List.length_append, List.length_cons, List.length_nil] at hlen ⊢
            omega
  exact main cs.length cs current parts p le_rfl hp

/-- If the loop emits at least two new parts, a separator was consumed, so
every new part is at least four characters shorter than the scanned text. -/
theorem orScan_two_length (cs current : List Char) (parts : List (List Char))
    (htwo : parts.length + 2 ≤ (orScan cs current parts).length)
    (p : List Char) (hp : p ∈ orScan cs current parts) :
    p ∈ parts ∨ p.length + 4 ≤ current.length + cs.length := by
  have main : ∀ (fuel : Nat) (cs current : List Char) (parts : List (List Char))
      (p : List Char), cs.length ≤ fuel →
      parts.length + 2 ≤ (orScanF fuel cs current parts).length →
      p ∈ orScanF fuel cs current parts →
      p ∈ parts ∨ p.length + 4 ≤ current.length + cs.length := by
    intro fuel
    induction fuel with
    | zero =>
      intro cs current parts p h1 htwo _
      exfalso
      have : cs = [] := List.length_eq_zero.mp (Nat.le_zero.mp h1)
      subst this
      rw [orScanF_nil] at htwo
      have hlen : (stripPush current).length ≤ 1 := by
        unfold stripPush
        split <;> simp
      simp only [List.length_append] at htwo
      omega
    | succ a ih =>
      intro cs current parts p h1 htwo hp
      match cs with
      | [] =>
        exfalso
        rw [orScanF_nil] at htwo
        have hlen : (stripPush current).length ≤ 1 := by
          unfold stripPush
          split <;> simp
        simp only [List.length_append] at htwo
        omega
      | c :: rest =>
        rw [orScanF] at hp htwo
        simp only [List.length_cons] at h1
        by_cases hsep : sepHead (c :: rest) = true
        · rw [if_pos hsep] at hp
          have h4 := sepHead_length hsep
          have hof : orScanF a (rest.drop 3) [] (parts ++ stripPush current)
              = orScan (rest.drop 3) [] (parts ++ stripPush current) :=
            orScanF_irrel _ _ _ _ _ (by simp only [List.length_drop]; omega) le_rfl
          rw [hof] at hp
          rcases orScan_mem_length _ _ _ p hp with hmem | hlen
          · rcases List.mem_append.1 hmem with h | h
            · exact Or.inl h
            · refine Or.inr ?_
              have := stripPush_mem_length h
              simp only [List.length_cons] at h4 ⊢
              omega
          · refine Or.inr ?_
            simp only [List.length_nil, List.length_drop, List.length_cons] at hlen h4 ⊢
            omega
        · rw [if_neg hsep] at hp htwo
          rcases ih _ _ _ p (by omega) htwo hp with hmem | hlen
          · exact Or.inl hmem
          · refine Or.inr ?_
            simp only [List.length_append, List.length_cons, List.length_nil] at hlen ⊢
            omega
  exact main cs.length cs current parts p le_rfl htwo hp

/-- Recursion engine of `parse_boolean_query`; the fuel (at least the query
length) only makes the recursion over the `OR` segments structural, see
`parse_boolean_query_def`. -/
def parseBQF : Nat → List Char → BQuery
  | 0, q => .TERM (pyStrip q)
  | fuel + 1, q =>
    if ("NOT ".data).isPrefixOf (pyUpper (pyStrip q)) then
      .NOT (pyStrip ((pyStrip q).drop 4))
    else if strIn (" OR ".data) (pyUpper (pyStrip q)) then
      if 1 < (orScan (pyStrip q) [] []).length then
        .OR ((orScan (pyStrip q) [] []).map (parseBQF fuel))
      else .TERM (pyStrip q)
    else .TERM (pyStrip q)

/-- `parse_boolean_query` (app.py, lines 1800-1850): strip; a query whose
uppercase form starts with `"NOT "` is a `NOT` of the stripped remainder;
otherwise a query containing `" OR "` (against the uppercase form) is split
by the scanning loop, and more than one part yields an `OR` over the
recursively parsed parts; anything else is a `TERM` of the stripped query. -/
def parse_boolean_query (q : List Char) : BQuery :=
  parseBQF q.length q

theorem parseBQF_empty (fuel : Nat) : parseBQF fuel [] = .TERM [] := by
  cases fuel with
  | zero => rfl
  | succ a => rfl

theorem parseBQF_irrel (n : Nat) :
    ∀ (f1 f2 : Nat) (q : List Char), q.length ≤ n → q.length ≤ f1 → q.length ≤ f2 →
      parseBQF f1 q = parseBQF f2 q := by
  induction n with
  | zero =>
    intro f1 f2 q hn _ _
    have : q = [] := List.length_eq_zero.mp (Nat.le_zero.mp hn)
    subst this
    rw [parseBQF_empty, parseBQF_empty]
  | succ m ih =>
    intro f1 f2 q hn h1 h2
    match hq : q with
    | [] => rw [parseBQF_empty, parseBQF_empty]
    | c :: tail =>
      match f1, f2 with
      | 0, _ => simp at h1
      | _, 0 => simp at h2
      | a + 1, b + 1 =>
        rw [parseBQF, parseBQF]
        by_cases hnot : ("NOT ".data).isPrefixOf (pyUpper (pyStrip (c :: tail))) = true
        · rw [if_pos hnot, if_pos hnot]
        · rw [if_neg hnot, if_neg hnot]
          by_cases hor : strIn (" OR ".data) (pyUpper (pyStrip (c :: tail))) = true
          · rw [if_pos hor, if_pos hor]
            by_cases hparts : 1 < (orScan (pyStrip (c :: tail)) [] []).length
            · rw [if_pos hparts, if_pos hparts]
              congr 1
              refine List.map_congr_left (fun p hp => ?_)
              have hb := orScan_two_length (pyStrip (c :: tail)) [] []
                (by simp only [List.length_nil]; omega) p hp
              simp only [List.not_mem_nil, false_or, List.length_nil] at hb
              have hs := pyStrip_length_le (c :: tail)
              exact ih _ _ p (by omega) (by omega) (by omega)
            · rw [if_neg hparts, if_neg hparts]
          · rw [if_neg hor, if_neg hor]

/-- The recursion `parse_boolean_query` implements, as in the source. -/
theorem parse_boolean_query_def (q : List Char) :
    parse_boolean_query q
      = if ("NOT ".data).isPrefixOf (pyUpper (pyStrip q)) then
          .NOT (pyStrip ((pyStrip q).drop 4))
        else if strIn (" OR ".data) (pyUpper (pyStrip q)) then
          if 1 < (orScan (pyStrip q) [] []).length then
            .OR ((orScan (pyStrip q) [] []).map parse_boolean_query)
          else .TERM (pyStrip q)
        else .TERM (pyStrip q) := by
  match hq : q with
  | [] =>
    rw [parse_boolean_query, parseBQF_empty]
    norm_num [pyStrip, pyUpper, strIn, List.isPrefixOf]
  | c :: tail =>
    show parseBQF (tail.length + 1) (c :: tail) = _
    rw [parseBQF]
    by_cases hnot : ("NOT ".data).isPrefixOf (pyUpper (pyStrip (c :: tail))) = true
    · rw [if_pos hnot, if_pos hnot]
    · rw [if_neg hnot, if_neg hnot]
      by_cases hor : strIn (" OR ".data) (pyUpper (pyStrip (c :: tail))) = true
      · rw [if_pos hor, if_pos hor]
        by_cases hparts : 1 < (orScan (pyStrip (c :: tail)) [] []).length
        · rw [if_pos hparts, if_pos hparts]
          congr 1
          refine List.map_congr_left (fun p hp => ?_)
          have hb := orScan_two_length (pyStrip (c :: tail)) [] []
            (by simp only [List.length_nil]; omega) p hp
          simp only [List.not_mem_nil, false_or, List.length_nil] at hb
          have hs := pyStrip_length_le (c :: tail)
          simp only [List.length_cons] at hs
          exact parseBQF_irrel p.length _ _ p le_rfl (by omega) le_rfl
        · rw [if_neg hparts, if_neg hparts]
      · rw [if_neg hor, if_neg hor]

/-- `is_boolean_query` (app.py, lines 1927-1930): the uppercased query
contains `" OR "` or starts with `"NOT "`. -/
def is_boolean_query (q : List Char) : Bool :=
  strIn (" OR ".data) (pyUpper q) || ("NOT ".data).isPrefixOf (pyUpper q)

/-! ### Pandas data-frame model

A data frame is a list of column names together with indexed rows of typed
cells.  The row index models the pandas index (unique after the adapters'
`ignore_index` concatenations); a cell is missing (`NaN`), a string, or a
number. -/

/-- A pandas cell: missing (`NaN`), a string, or a number. -/
inductive PValue where
  | NA
  | str (s : String)
  | num (q : Rat)
  deriving DecidableEq

/-- A pandas data frame: column names and indexed rows of cells, the cells
of a row positionally aligned with the column names. -/
structure DataFrame where
  cols : List String
  rows : List (Nat × List PValue)
  deriving DecidableEq

/-- Cell of a row in a named column (the column is looked up positionally;
a short row reads as missing). -/
def cellVal (cols : List String) (column : String) (cells : List PValue) : PValue :=
  match cols.findIdx? (fun c => c == column) with
  | some i => (cells.get? i).getD .NA
  | none => .NA

/-- `df[column].str.lower().fillna('')` applied to one cell: a missing (or
non-string) cell reads as the empty string, a string cell is lowercased. -/
def cellSearchText (v : PValue) : List Char :=
  match v with
  | .str s => pyLower s.data
  | _ => []

/-- The series `col_lower` of `apply_boolean_filter`, aligned with the rows. -/
def colLowerOf (df : DataFrame) (column : String) : List (List Char) :=
  df.rows.map (fun r => cellSearchText (cellVal df.cols column r.2))

/-- `df[mask]`: the rows at the `true` positions of a boolean mask. -/
def maskFilter {α : Type} (rows : List α) (mask : List Bool) : List α :=
  (rows.zip mask).filterMap (fun p => if p.2 then some p.1 else none)

/-- Elementwise `|` of two boolean masks. -/
def orMask (a b : List Bool) : List Bool :=
  a.zipWith (fun x y => x || y) b

/-- `combined_mask = masks[0]; for m in masks[1:]: combined_mask |= m`. -/
def foldOrMasks : List (List Bool) → List Bool
  | [] => []
  | m :: rest => rest.foldl orMask m

/-- `result[column].isin(exclusions)` for one cell: only a string cell can
be a member of the exclusion set. -/
def cellInExclusions (exclusions : List String) (v : PValue) : Bool :=
  match v with
  | .str s => exclusions.contains s
  | _ => false

mutual

/-- `apply_boolean_filter` (app.py, lines 1853-1906): an empty frame or a
frame without the search column is returned unchanged; a `TERM` keeps the
rows whose lowered column text contains the lowered term, a `NOT` keeps the
complement, an `OR` keeps the rows whose index appears in some non-empty
sub-result (an `OR` with only empty sub-results yields the empty frame
`pd.DataFrame()`); finally, when a non-empty exclusion set is supplied and
the result still has the column, rows whose column value is excluded are
removed. -/
def apply_boolean_filter (df : DataFrame) (q : BQuery) (column : String)
    (exclusions : List String) : DataFrame :=
  if df.rows.isEmpty then df
  else if df.cols.contains column = false then df
  else
    let result :=
      match q with
      | .TERM t =>
        let term := pyLower t
        ⟨df.cols, maskFilter df.rows ((colLowerOf df column).map (fun s => strIn term s))⟩
      | .OR subs =>
        let subResults := applyBFList df subs column
        let masks := (subResults.filter (fun r => r.rows.isEmpty = false)).map
          (fun r => df.rows.map (fun row => (r.rows.map Prod.fst).contains row.1))
        if masks.isEmpty then (⟨[], []⟩ : DataFrame)
        else ⟨df.cols, maskFilter df.rows (foldOrMasks masks)⟩
      | .NOT t =>
        let term := pyLower t
        ⟨df.cols, maskFilter df.rows ((colLowerOf df column).map (fun s => !strIn term s))⟩
    if !exclusions.isEmpty && !result.rows.isEmpty && result.cols.contains column then
      ⟨result.cols,
        result.rows.filter (fun r => !cellInExclusions exclusions (cellVal result.cols column r.2))⟩
    else result

/-- The recursive evaluation of the sub-queries of an `OR` node
(`for sub_query in query['terms']: apply_boolean_filter(df, sub_query,
column)` — no exclusions are passed to the recursive calls). -/
def applyBFList (df : DataFrame) (qs : List BQuery) (column : String) : List DataFrame :=
  match qs with
  | [] => []
  | q :: rest => apply_boolean_filter df q column [] :: applyBFList df rest column

end

theorem applyBFList_eq_map (df : DataFrame) (qs : List BQuery) (column : String) :
    applyBFList df qs column = qs.map (fun sq => apply_boolean_filter df sq column []) := by
  induction qs with
  | nil => rfl
  | cons q rest ih => rw [applyBFList, ih, List.map_cons]

/-- `apply_exclusions` (app.py, lines 2039-2044): with an empty frame or an
empty exclusion set the frame is unchanged; with the donor column present
the excluded donors' rows are removed; without it the frame is unchanged. -/
def apply_exclusions (df : DataFrame) (donorCol : String) (excluded : List String) : DataFrame :=
  if df.rows.isEmpty || excluded.isEmpty then df
  else if df.cols.contains donorCol then
    ⟨df.cols, df.rows.filter (fun r => !cellInExclusions excluded (cellVal df.cols donorCol r.2))⟩
  else df

/-! ### UK Electoral Commission adapter (`search_uk_donations`)

Only the numeric cleanup of the `Value` column is modelled here (app.py,
lines 224-226): `df['Value'].str.replace('£','').str.replace(',','')
.astype(float)`, applied cellwise; `astype(float)` raises `ValueError`
(here `none`) on a cell that does not parse. -/

/-- Per-cell `ValueNumeric` computation of the UK adapter. -/
def ukValueNumeric (value : List Char) : Option Rat :=
  pyFloat (pyReplace [','] [] (pyReplace ['£'] [] value))

/-! ### German Bundestag adapter (`scrape_bundestag_year`)

The fetch and the HTML parsing are I/O; the model receives the table rows
as lists of cell texts and reproduces the loop of app.py lines 300-345:
single-cell rows set the current month, rows of at least four cells become
records, all other rows are skipped. -/

/-- A character of the class `[\d.,]` of the amount regular expressions. -/
def isAmountChar (c : Char) : Bool :=
  c.isDigit || c = '.' || c = ','

/-- `re.search(r'([\d.,]+)\s*Euro', s)` (app.py, line 319): the leftmost
position where a non-empty greedy run of `[\d.,]` characters, optional
whitespace, and the literal `Euro` follow; result is the captured run.
(No backtracking is possible: the run's characters are neither whitespace
nor `E`.) -/
def euroAmountCapture : List Char → Option (List Char)
  | [] => none
  | c :: rest =>
    if isAmountChar c then
      if ("Euro".data).isPrefixOf (((c :: rest).dropWhile isAmountChar).dropWhile pyIsSpace) then
        some ((c :: rest).takeWhile isAmountChar)
      else euroAmountCapture rest
    else euroAmountCapture rest

/-- The continental-format numeric cleanup shared by the Bundestag scraper
(app.py, line 321) and the Austrian CSV parser (app.py, lines 585-588):
`amount_str.replace('.', '').replace(',', '.')` fed to `float`. -/
def continentalFloat (s : List Char) : Option Rat :=
  pyFloat (pyReplace [','] ['.'] (pyReplace ['.'] [] s))

/-- Amount parsing of the Bundestag scraper (app.py, lines 318-327): the
regex capture with `.` removed and `,` turned into `.` is fed to `float`;
a failed match or a failed `float` yields the amount `0`. -/
def bundestagAmount (amountText : List Char) : Rat :=
  match euroAmountCapture amountText with
  | some cap => (continentalFloat cap).getD 0
  | none => 0

/-- The character class `[a-zäöü]` of the donor-splitting regex. -/
def deLowerChar (c : Char) : Bool :=
  ('a' ≤ c && c ≤ 'z') || c = 'ä' || c = 'ö' || c = 'ü'

/-- The character class `[A-ZÄÖÜ]` of the donor-splitting regex. -/
def deUpperChar (c : Char) : Bool :=
  ('A' ≤ c && c ≤ 'Z') || c = 'Ä' || c = 'Ö' || c = 'Ü'

/-- A split point of `re.split(r'(?<=[a-zäöü])(?=[A-ZÄÖÜ0-9])|(?<=\.)(?=[A-Z])', s)`;
the second alternative's lookahead is ASCII `[A-Z]` only. -/
def deBoundary (a b : Char) : Bool :=
  (deLowerChar a && (deUpperChar b || b.isDigit)) || (a = '.' && ('A' ≤ b && b ≤ 'Z'))

/-- `donor_parts[0]` (app.py, lines 330-331): the prefix of the raw donor
text up to the first split boundary. -/
def bundestagDonorDisplay : List Char → List Char
  | [] => []
  | [c] => [c]
  | a :: b :: rest => if deBoundary a b then [a] else a :: bundestagDonorDisplay (b :: rest)

/-- One donation row scraped from a Bundestag yearly table. -/
structure BundestagRec where
  year : Int
  month : Option (List Char)
  party : List Char
  amount : Rat
  amountText : List Char
  donor : List Char
  donorFull : List Char
  dateReceived : List Char
  deriving DecidableEq

/-- The row loop of `scrape_bundestag_year` (app.py, lines 303-343),
carrying the current month header. -/
def bundestagGo (year : Int) (currentMonth : Option (List Char)) :
    List (List (List Char)) → List BundestagRec
  | [] => []
  | cells :: rest =>
    if cells.length = 1 then
      bundestagGo year (some (pyStrip (cells.getD 0 []))) rest
    else if 4 ≤ cells.length then
      { year := year, month := currentMonth, party := pyStrip (cells.getD 0 []),
        amount := bundestagAmount (pyStrip (cells.getD 1 [])),
        amountText := pyStrip (cells.getD 1 []),
        donor := bundestagDonorDisplay (pyStrip (cells.getD 2 [])),
        donorFull := pyStrip (cells.getD 2 []),
        dateReceived := pyStrip (cells.getD 3 []) } :: bundestagGo year currentMonth rest
    else bundestagGo year currentMonth rest

/-- `scrape_bundestag_year` on a fetched table: the first (header) row is
skipped, then the month/data row loop runs. -/
def scrape_bundestag_rows (year : Int) (rows : List (List (List Char))) : List BundestagRec :=
  bundestagGo year none (rows.drop 1)

/-! ### Austrian Rechnungshof adapter (`parse_austria_csv`) -/

/-- The `col_map` dict of `parse_austria_csv` (app.py, lines 548-562). -/
structure AustriaColMap where
  party : Option Nat
  donor : Option Nat
  amount : Option Nat
  date : Option Nat
  plz : Option Nat
  recipient : Option Nat
  deriving DecidableEq

/-- One header column updates the column map through the `elif` chain of
app.py lines 549-562 (`col_clean = col.strip().replace('﻿','')`). -/
def austriaColUpdate (cm : AustriaColMap) (i : Nat) (col : List Char) : AustriaColMap :=
  let colClean := pyReplace ['﻿'] [] (pyStrip col)
  if colClean = "Partei".data then { cm with party := some i }
  else if strIn ("Name_der_Spenderin".data) colClean || strIn ("Name".data) colClean then
    { cm with donor := some i }
  else if strIn ("Betrag".data) colClean then { cm with amount := some i }
  else if strIn ("Spendeneingangsdatum".data) colClean then { cm with date := some i }
  else if strIn ("PLZ".data) colClean then { cm with plz := some i }
  else if strIn ("Empfaengerin".data) colClean || strIn ("Empfänger".data) colClean then
    { cm with recipient := some i }
  else cm

/-- The column map of a header line. -/
def buildAustriaColMap (header : List (List Char)) : AustriaColMap :=
  (header.enum).foldl (fun cm p => austriaColUpdate cm p.1 p.2) ⟨none, none, none, none, none, none⟩

/-- One Austrian donation record. -/
structure AustriaRec where
  party : List Char
  donor : List Char
  amount : Rat
  date : List Char
  recipient : List Char
  year : Int
  source : String
  deriving DecidableEq

/-- `line.replace('\r','').split(';')`. -/
def austriaFields (line : List Char) : List (List Char) :=
  splitOn ';' (pyReplace ['\r'] [] line)

/-- Amount extraction of an Austrian data row (app.py, lines 583-589): the
`Betrag` field (default text `'0'` when the column is absent) with `.`
removed and `,` turned into `.`, fed to `float`; `none` both for a missing
field (`IndexError`, caught by the outer `except`) and a failed `float`
(caught by the inner `except`), either of which skips the row. -/
def austriaAmountOf (cm : AustriaColMap) (fields : List (List Char)) : Option Rat :=
  let amountStr? : Option (List Char) :=
    match cm.amount with
    | none => some ['0']
    | some i => (fields.get? i).map pyStrip
  amountStr?.bind continentalFloat

/-- One data row of `parse_austria_csv` (app.py, lines 565-607): the row is
skipped (`none`) when the party or donor is empty or its column is missing
from the map, when any accessed field index is out of range (`IndexError`),
or when the amount does not parse. -/
def austriaRow (cm : AustriaColMap) (year : Int) (fields : List (List Char)) : Option AustriaRec :=
  match cm.party with
  | none => none
  | some i =>
    match fields.get? i with
    | none => none
    | some f =>
      let party := pyStrip f
      if party = [] then none
      else
        match cm.donor with
        | none => none
        | some j =>
          match fields.get? j with
          | none => none
          | some g =>
            let donor := pyStrip g
            if donor = [] then none
            else
              match austriaAmountOf cm fields with
              | none => none
              | some amount =>
                let date? : Option (List Char) :=
                  match cm.date with
                  | none => some []
                  | some k => (fields.get? k).map pyStrip
                match date? with
                | none => none
                | some date =>
                  let recipient? : Option (List Char) :=
                    match cm.recipient with
                    | none => some party
                    | some k => (fields.get? k).map pyStrip
                  match recipient? with
                  | none => none
                  | some recipient =>
                    some { party := party, donor := donor, amount := amount, date := date,
                           recipient := recipient, year := year, source := "Austria Rechnungshof" }

/-- `parse_austria_csv` (app.py, lines 529-609): strip and split into
lines, find the header line (the first containing both `Partei` and
`Betrag`, defaulting to the first line), build the column map, then parse
every later non-blank line, skipping rows per `austriaRow`. -/
def parse_austria_csv (csvText : List Char) (year : Int) : List AustriaRec :=
  if csvText.isEmpty then []
  else
    let lines := splitOn '\n' (pyStrip csvText)
    let headerIdx := (lines.findIdx? (fun line =>
      strIn ("Partei".data) line && strIn ("Betrag".data) line)).getD 0
    let cm := buildAustriaColMap (austriaFields (lines.getD headerIdx []))
    (lines.drop (headerIdx + 1)).filterMap (fun line =>
      if pyStrip line = [] then none else austriaRow cm year (austriaFields line))

/-! ### Latvian KNAB adapter (`scrape_knab_donations`)

The model receives, per page number, the outcome of fetching and parsing
that page (a requests/parsing exception, or the page's table shape and
rows) and reproduces the page loop of app.py lines 988-1069, recording an
event trace: one `fetch` event per attempted page request and one `sleep`
event for the `time.sleep(0.5)` between consecutive page fetches. -/

/-- `re.search(r'EUR\s*([\d,.]+)', s)` (app.py, line 1018): the leftmost
occurrence of the literal `EUR` followed by optional whitespace and a
non-empty greedy run of `[\d,.]` characters; result is the captured run. -/
def eurAmountCapture : List Char → Option (List Char)
  | [] => none
  | c :: rest =>
    if ("EUR".data).isPrefixOf (c :: rest) then
      let run := (((c :: rest).drop 3).dropWhile pyIsSpace).takeWhile isAmountChar
      if run.isEmpty then eurAmountCapture rest else some run
    else eurAmountCapture rest

/-- Recursion engine of `knabSub` (fuel at least the input length). -/
def knabSubF : Nat → List Char → List Char
  | 0, l => l
  | fuel + 1, l =>
    match l with
    | a :: b :: c :: d :: e :: f :: g :: rest =>
      if a.isDigit && b.isDigit && c.isDigit && d.isDigit && e.isDigit && f.isDigit && g = '*' then
        knabSubF fuel (rest.dropWhile (fun x => x = '*'))
      else a :: knabSubF fuel (b :: c :: d :: e :: f :: g :: rest)
    | l => l

/-- `re.sub(r'\d{6}\*+', '', s)` (app.py, line 1022): every non-overlapping
occurrence of six digits followed by one or more asterisks is removed,
left to right. -/
def knabSub (l : List Char) : List Char :=
  knabSubF l.length l

/-- Donation-type translation (app.py, lines 1025-1030). -/
def knabDtype (dtype : List Char) : List Char :=
  if dtype = "Nauda".data then "Cash".data
  else if strIn ("Manta".data) dtype then "In-kind".data
  else dtype

/-- Year extraction from a `DD.MM.YYYY` date (app.py, lines 1033-1040): a
failed split or a failed `int` falls back to the current year. -/
def knabYear (currentYear : Int) (dateStr : List Char) : Int :=
  let parts := splitOn '.' dateStr
  if parts.length = 3 then (pyInt (parts.getD 2 [])).getD currentYear else currentYear

/-- One Latvian donation record. -/
structure KnabRec where
  donor : List Char
  party : List Char
  amount : Rat
  dtype : List Char
  date : List Char
  year : Int
  source : String
  country : String
  deriving DecidableEq

/-- One table row of a KNAB result page (app.py, lines 1008-1051): rows of
fewer than five cells are skipped (`ok none`); on a row whose amount
capture fails to convert, `float` raises (`error`), which the page-level
`except` turns into the end of the scrape; a failed capture yields the
amount `0`. -/
def knabRowParse (currentYear : Int) (cells : List (List Char)) : Except Unit (Option KnabRec) :=
  if 5 ≤ cells.length then
    let party := pyStrip (cells.getD 0 [])
    let dtype := pyStrip (cells.getD 1 [])
    let amountText := pyStrip (cells.getD 2 [])
    let personRaw := pyStrip (cells.getD 3 [])
    let dateStr := pyStrip (cells.getD 4 [])
    let mkRec : Rat → KnabRec := fun amount =>
      { donor := pyStrip (knabSub personRaw), party := party, amount := amount,
        dtype := knabDtype dtype, date := dateStr, year := knabYear currentYear dateStr,
        source := "Latvia KNAB", country := "Latvia" }
    match eurAmountCapture amountText with
    | some cap =>
      match pyFloat (pyReplace [','] ['.'] cap) with
      | none => .error ()
      | some amount => .ok (some (mkRec amount))
    | none => .ok (some (mkRec 0))
  else .ok none

/-- The row loop over one page's rows: records accumulate in order; an
exception while parsing a row aborts with the records accumulated so far
(the appends already made are kept). -/
def knabProcessRows (currentYear : Int) :
    List (List (List Char)) → List KnabRec → Except (List KnabRec) (List KnabRec)
  | [], acc => .ok acc
  | r :: rest, acc =>
    match knabRowParse currentYear r with
    | .error _ => .error acc
    | .ok none => knabProcessRows currentYear rest acc
    | .ok (some d) => knabProcessRows currentYear rest (acc ++ [d])

/-- The relevant shape of one fetched KNAB page: presence of the donations
table, its body, its rows, and the pagination controls. -/
structure KnabPage where
  hasTable : Bool
  hasTbody : Bool
  rows : List (List (List Char))
  hasPagination : Bool
  hasNextLink : Bool
  deriving DecidableEq

/-- The outcome of fetching one page: an exception, or the parsed page. -/
inductive KnabFetch where
  | fail
  | page (p : KnabPage)

/-- An observable step of the scrape: a page request, or the
`time.sleep(0.5)` between page fetches. -/
inductive KnabEvent where
  | fetch (page : Nat)
  | sleep
  deriving DecidableEq

/-- The page loop of `scrape_knab_donations` (app.py, lines 988-1067): for
each page up to the page budget, fetch; a fetch/parse exception, a missing
table or body, an empty row list, a missing pagination block or a missing
next-page link each end the loop (returning everything accumulated); an
exception inside the row loop keeps the rows appended before it and ends
the loop; otherwise sleep and continue with the next page. -/
def knabGo (fetch : Nat → KnabFetch) (currentYear : Int) :
    Nat → Nat → List KnabRec → List KnabEvent → List KnabRec × List KnabEvent
  | _, 0, acc, tr => (acc, tr)
  | pageNum, fuel + 1, acc, tr =>
    let tr' := tr ++ [KnabEvent.fetch pageNum]
    match fetch pageNum with
    | .fail => (acc, tr')
    | .page p =>
      if !p.hasTable then (acc, tr')
      else if !p.hasTbody then (acc, tr')
      else if p.rows.isEmpty then (acc, tr')
      else
        match knabProcessRows currentYear p.rows acc with
        | .error acc' => (acc', tr')
        | .ok acc' =>
          if !p.hasPagination then (acc', tr')
          else if !p.hasNextLink then (acc', tr')
          else knabGo fetch currentYear (pageNum + 1) fuel acc' (tr' ++ [KnabEvent.sleep])

/-- `scrape_knab_donations` over a page budget (`max_pages`, 10 at the call
sites): pages are numbered from 1. -/
def scrape_knab_donations (fetch : Nat → KnabFetch) (currentYear : Int) (maxPages : Nat) :
    List KnabRec × List KnabEvent :=
  knabGo fetch currentYear 1 maxPages [] []

/-! ### Estonian ERJK adapter (`search_estonia_donations`)

The Estonian adapter works on an embedded sample data set (app.py, lines
1153-1169), so its behaviour is fully determined by the query.  The mask of
the simple search path, `df['Donor'].str.lower().str.contains(query_lower,
na=False)`, compiles the query as a regular expression; `pdStrContains`
models that compile step. -/

/-- Balance check of the parentheses of a regular-expression pattern:
`re.compile` rejects a pattern with an unmatched `(` or `)`
(`re.error: missing ), unterminated subpattern` / `unbalanced parenthesis`). -/
def parenScan : List Char → Nat → Bool
  | [], k => k = 0
  | '(' :: rest, k => parenScan rest (k + 1)
  | ')' :: rest, k =>
    match k with
    | 0 => false
    | k' + 1 => parenScan rest k'
  | _ :: rest, k => parenScan rest k

/-- `Series.str.contains(pat)` for the exercised fragment, shared by the
Estonian adapter and the regex-aware query-engine model
`apply_boolean_filter_re`: a pattern with unbalanced parentheses raises
`re.error`; a pattern without metacharacters (every pattern the theorems
evaluate on the `ok` branch — see `reLiteral` and `pdStrContains_literal`)
matches as a literal substring, exactly as `re.search` does for such
patterns. -/
def pdStrContains (pat : List Char) (s : List Char) : Except String Bool :=
  if parenScan pat 0 then .ok (strIn pat s) else .error "re.error"

/-- The embedded Estonian sample records (app.py, lines 1153-1169) as a
data frame with the `Source` and `Country` columns appended. -/
def estoniaDf : DataFrame :=
  { cols := ["Donor", "Party", "Amount", "Year", "Quarter", "Source", "Country"],
    rows := [
      (0, [.str "Margus Linnamäe", .str "Eesti 200", .num 50000, .num 2024, .str "Q1",
           .str "Estonia ERJK (sample)", .str "Estonia"]),
      (1, [.str "Rain Lõhmus", .str "Reformierakond", .num 30000, .num 2024, .str "Q1",
           .str "Estonia ERJK (sample)", .str "Estonia"]),
      (2, [.str "Urmas Sõõrumaa", .str "Isamaa", .num 25000, .num 2024, .str "Q1",
           .str "Estonia ERJK (sample)", .str "Estonia"]),
      (3, [.str "Parvel Pruunsild", .str "Isamaa", .num 20000, .num 2024, .str "Q2",
           .str "Estonia ERJK (sample)", .str "Estonia"]),
      (4, [.str "Raul Kibena", .str "Reformierakond", .num 15000, .num 2025, .str "Q2",
           .str "Estonia ERJK (sample)", .str "Estonia"]),
      (5, [.str "Jevgeni Ossinovski", .str "SDE", .num 16905, .num 2025, .str "Q2",
           .str "Estonia ERJK (sample)", .str "Estonia"]),
      (6, [.str "Martin Helme", .str "EKRE", .num 10000, .num 2024, .str "Q1",
           .str "Estonia ERJK (sample)", .str "Estonia"]),
      (7, [.str "Kert Kingo", .str "EKRE", .num 7015, .num 2025, .str "Q2",
           .str "Estonia ERJK (sample)", .str "Estonia"]),
      (8, [.str "Margus Linnamäe", .str "Eesti 200", .num 100000, .num 2023, .str "Q1",
           .str "Estonia ERJK (sample)", .str "Estonia"]),
      (9, [.str "Aivar Berzin", .str "Keskerakond", .num 50000, .num 2023, .str "Q1",
           .str "Estonia ERJK (sample)", .str "Estonia"]),
      (10, [.str "Rain Lõhmus", .str "Reformierakond", .num 45000, .num 2023, .str "Q1",
           .str "Estonia ERJK (sample)", .str "Estonia"]),
      (11, [.str "Hillar Teder", .str "Reformierakond", .num 25000, .num 2023, .str "Q2",
           .str "Estonia ERJK (sample)", .str "Estonia"]),
      (12, [.str "Urmas Sõõrumaa", .str "Isamaa", .num 25000, .num 2023, .str "Q2",
           .str "Estonia ERJK (sample)", .str "Estonia"])] }

/-- `search_estonia_donations` (app.py, lines 1140-1184): a boolean query
goes through `parse_boolean_query`/`apply_boolean_filter`; a simple query
is compiled as a regular expression against the lowered `Donor` column —
an invalid pattern makes `str.contains` raise `re.error`, which nothing in
the adapter catches. -/
def search_estonia_donations (query : List Char) : Except String DataFrame :=
  let df := estoniaDf
  if is_boolean_query query then
    .ok (apply_boolean_filter df (parse_boolean_query query) "Donor" [])
  else
    match (colLowerOf df "Donor").mapM (fun s => pdStrContains (pyLower query) s) with
    | .error e => .error e
    | .ok mask => .ok ⟨df.cols, maskFilter df.rows mask⟩

/-! ### The query filter with the regex semantics of `Series.str.contains`

`col_lower.str.contains(term, na=False)` (app.py, lines 1876 and 1896)
compiles the lowered term as a regular expression, so over arbitrary terms
the boolean filter can raise `re.error`.  `apply_boolean_filter_re` is
`apply_boolean_filter` with that call modelled by the fallible
`pdStrContains` instead of the total substring test; on terms free of
regex metacharacters the two agree (`abfRe_term_literal` etc.), because a
metacharacter-free pattern matches exactly as a literal substring. -/

/-- A regular-expression metacharacter (outside a literal pattern the
match semantics and the substring semantics can differ, and the pattern
may fail to compile). -/
def reMetachar (c : Char) : Bool :=
  c = '.' || c = '^' || c = '$' || c = '*' || c = '+' || c = '?' ||
  c = '\x7b' || c = '\x7d' || c = '[' || c = ']' || c = '\\' || c = '|' || c = '(' || c = ')'

/-- A pattern free of regex metacharacters: `re.search` on such a pattern
is exactly literal substring containment. -/
def reLiteral (pat : List Char) : Bool :=
  pat.all (fun c => !reMetachar c)

mutual

/-- `apply_boolean_filter` (app.py, lines 1853-1906) with the
`str.contains` calls given their actual regex semantics via
`pdStrContains`: compiling the lowered term can raise `re.error`, which
propagates out of the filter (nothing in the function catches it).  The
structure mirrors `apply_boolean_filter`; the source's early
`return pd.DataFrame()` on an empty mask list coincides with falling
through the exclusion step, which skips empty results. -/
def apply_boolean_filter_re (df : DataFrame) (q : BQuery) (column : String)
    (exclusions : List String) : Except String DataFrame :=
  if df.rows.isEmpty then .ok df
  else if df.cols.contains column = false then .ok df
  else
    match q with
    | .TERM t =>
      let term := pyLower t
      match (colLowerOf df column).mapM (fun s => pdStrContains term s) with
      | .error e => .error e
      | .ok mask =>
        let result : DataFrame := ⟨df.cols, maskFilter df.rows mask⟩
        .ok (if !exclusions.isEmpty && !result.rows.isEmpty && result.cols.contains column then
          ⟨result.cols, result.rows.filter
            (fun r => !cellInExclusions exclusions (cellVal result.cols column r.2))⟩
        else result)
    | .OR subs =>
      match applyBFListRe df subs column with
      | .error e => .error e
      | .ok subResults =>
        let masks := (subResults.filter (fun r => r.rows.isEmpty = false)).map
          (fun r => df.rows.map (fun row => (r.rows.map Prod.fst).contains row.1))
        let result : DataFrame :=
          if masks.isEmpty then (⟨[], []⟩ : DataFrame)
          else ⟨df.cols, maskFilter df.rows (foldOrMasks masks)⟩
        .ok (if !exclusions.isEmpty && !result.rows.isEmpty && result.cols.contains column then
          ⟨result.cols, result.rows.filter
            (fun r => !cellInExclusions exclusions (cellVal result.cols column r.2))⟩
        else result)
    | .NOT t =>
      let term := pyLower t
      match (colLowerOf df column).mapM (fun s => pdStrContains term s) with
      | .error e => .error e
      | .ok mask =>
        let result : DataFrame := ⟨df.cols, maskFilter df.rows (mask.map (fun b => !b))⟩
        .ok (if !exclusions.isEmpty && !result.rows.isEmpty && result.cols.contains column then
          ⟨result.cols, result.rows.filter
            (fun r => !cellInExclusions exclusions (cellVal result.cols column r.2))⟩
        else result)

/-- The recursive evaluation of the `OR` sub-queries, in order, as the
source's list comprehension: the first raised `re.error` propagates. -/
def applyBFListRe (df : DataFrame) (qs : List BQuery) (column : String) :
    Except String (List DataFrame) :=
  match qs with
  | [] => .ok []
  | q :: rest =>
    match apply_boolean_filter_re df q column [] with
    | .error e => .error e
    | .ok r =>
      match applyBFListRe df rest column with
      | .error e => .error e
      | .ok rs => .ok (r :: rs)

end

/-! ### Report assembler (`create_excel_report`)

`create_excel_report` (app.py, lines 1265-1793) builds the workbook: a
summary sheet with one row per jurisdiction block (UK, Germany, EU,
Austria, Italy, Netherlands — app.py lines 1310-1431), one data sheet per
non-empty frame, and the static `Data Sources` sheet.  Cell styling,
column widths, the generation timestamp and the static methodology text
are presentation details and are not modelled; the `None` defaults of the
optional parameters are conflated with empty frames (the call site passes
real frames for all nine jurisdictions). -/

/-- The currency a summary total is rendered in (`£…`/`€…`). -/
inductive Currency where
  | GBP
  | EUR
  deriving DecidableEq

/-- The `Total Value` cell of a summary row: the placeholder `-` for an
empty jurisdiction, or an amount in one currency. -/
inductive TotalVal where
  | dash
  | money (c : Currency) (v : Rat)
  deriving DecidableEq

/-- The `Date Range` cell of a summary row: the placeholder `-`, the empty
string (date column missing or unusable), or a `min to max` span. -/
inductive RangeVal where
  | dash
  | blank
  | span (lo hi : PValue)
  deriving DecidableEq

/-- One row of the `Summary by Jurisdiction` block. -/
structure SummaryRow where
  jurisdiction : String
  count : Nat
  total : TotalVal
  dateRange : RangeVal
  deriving DecidableEq

/-- The modelled content of the exported workbook. -/
structure Report where
  title : String
  summary : List SummaryRow
  sheets : List String
  deriving DecidableEq

/-- A total order on cells used for column min/max (pandas `Series.min`/
`Series.max`); the summary only ranges over homogeneous columns, the
ordering between a number and a string is fixed arbitrarily. -/
def pvLe (a b : PValue) : Bool :=
  match a, b with
  | .num x, .num y => x ≤ y
  | .str x, .str y => !decide (y < x)
  | .num _, .str _ => true
  | .str _, .num _ => false
  | .NA, _ => true
  | _, .NA => false

/-- `Series.min`/`Series.max` of a column: missing cells are skipped; an
all-missing or empty column has no min/max. -/
def colMinMax (cells : List PValue) : Option (PValue × PValue) :=
  match cells.filter (fun v => !(v == PValue.NA)) with
  | [] => none
  | v :: rest =>
    some (rest.foldl (fun p w =>
      ((if pvLe w p.1 then w else p.1), (if pvLe p.2 w then w else p.2))) (v, v))

/-- `df[col].sum() if col in df.columns else 0`: the sum of the numeric
cells of the column (pandas skips missing values). -/
def sumColumn (df : DataFrame) (col : String) : Rat :=
  if df.cols.contains col then
    (df.rows.map (fun r => cellVal df.cols col r.2)).foldl
      (fun a v => match v with | .num q => a + q | _ => a) 0
  else 0

/-- The `min to max` date-range cell over a column, the empty string when
the column is missing or has no usable values. -/
def colRange (df : DataFrame) (col : String) : RangeVal :=
  if df.cols.contains col then
    match colMinMax (df.rows.map (fun r => cellVal df.cols col r.2)) with
    | some (lo, hi) => .span lo hi
    | none => .blank
  else .blank

/-- The UK summary row (app.py, lines 1310-1332): count, `£` total over
`ValueNumeric`, `AcceptedDate` range; placeholders when empty. -/
def ukSummary (df : DataFrame) : SummaryRow :=
  if df.rows.isEmpty then ⟨"UK", 0, .dash, .dash⟩
  else ⟨"UK", df.rows.length, .money .GBP (sumColumn df "ValueNumeric"), colRange df "AcceptedDate"⟩

/-- The German summary row (app.py, lines 1334-1352). -/
def germanySummary (df : DataFrame) : SummaryRow :=
  if df.rows.isEmpty then ⟨"Germany", 0, .dash, .dash⟩
  else ⟨"Germany", df.rows.length, .money .EUR (sumColumn df "Amount"), colRange df "Year"⟩

/-- The EU summary row (app.py, lines 1354-1372). -/
def euSummary (df : DataFrame) : SummaryRow :=
  if df.rows.isEmpty then ⟨"EU", 0, .dash, .dash⟩
  else ⟨"EU", df.rows.length, .money .EUR (sumColumn df "Amount"), colRange df "Year"⟩

/-- The Austrian summary row (app.py, lines 1374-1392). -/
def austriaSummary (df : DataFrame) : SummaryRow :=
  if df.rows.isEmpty then ⟨"Austria", 0, .dash, .dash⟩
  else ⟨"Austria", df.rows.length, .money .EUR (sumColumn df "Amount"), colRange df "Year"⟩

/-- The Italian summary row (app.py, lines 1394-1412; the `int` coercion of
the year bounds is a formatting detail). -/
def italySummary (df : DataFrame) : SummaryRow :=
  if df.rows.isEmpty then ⟨"Italy", 0, .dash, .dash⟩
  else ⟨"Italy", df.rows.length, .money .EUR (sumColumn df "Amount"), colRange df "Year"⟩

/-- The Dutch summary row (app.py, lines 1414-1431). -/
def netherlandsSummary (df : DataFrame) : SummaryRow :=
  if df.rows.isEmpty then ⟨"Netherlands", 0, .dash, .dash⟩
  else ⟨"Netherlands", df.rows.length, .money .EUR (sumColumn df "Amount"), colRange df "Year"⟩

/-- `create_excel_report` (app.py, lines 1265-1793): the summary rows in
source order (UK, Germany, EU, Austria, Italy, Netherlands), and the sheet
list — `Summary`, one data sheet per non-empty jurisdiction frame in
source order, and `Data Sources`. -/
def create_excel_report (companyName : String)
    (ukData germanyData austriaData italyData netherlandsData
     latviaData estoniaData lithuaniaData euData : DataFrame) : Report :=
  { title := "Political Donations Report: " ++ companyName,
    summary := [ukSummary ukData, germanySummary germanyData, euSummary euData,
                austriaSummary austriaData, italySummary italyData,
                netherlandsSummary netherlandsData],
    sheets := ["Summary"]
      ++ (if ukData.rows.isEmpty then [] else ["UK - Electoral Commission"])
      ++ (if germanyData.rows.isEmpty then [] else ["Germany - Bundestag"])
      ++ (if euData.rows.isEmpty then [] else ["EU - APPF"])
      ++ (if austriaData.rows.isEmpty then [] else ["Austria - Rechnungshof"])
      ++ (if italyData.rows.isEmpty then [] else ["Italy - Parliament"])
      ++ (if netherlandsData.rows.isEmpty then [] else ["Netherlands - BZK"])
      ++ (if latviaData.rows.isEmpty then [] else ["Latvia - KNAB"])
      ++ (if estoniaData.rows.isEmpty then [] else ["Estonia - ERJK"])
      ++ (if lithuaniaData.rows.isEmpty then [] else ["Lithuania - VRK"])
      ++ ["Data Sources"] }

/-! ### The interactive session (search handler, exclusion panel, export)

The main script body (app.py, lines 1935-2055) runs once per interaction.
Its session state is the exclusion set, the raw per-jurisdiction results
and the last submitted query; the inputs of one run are the search button,
the query text, and the checkbox decisions of the exclusion panel (the
current include/exclude choice per donor, as returned by `st.checkbox`).
The jurisdiction search functions are passed in as one function from the
query to the nine raw result frames. -/

/-- The session state (`st.session_state`, app.py lines 1936-1941). -/
structure Session where
  excludedDonors : List String
  rawResults : List (String × DataFrame)
  lastQuery : String

/-- The inputs of one script run. -/
structure RunInputs where
  searchButton : Bool
  searchQuery : String
  includeChoice : String → Bool

/-- The `donor_columns` dict (app.py, lines 1991-2001). -/
def donorColumns : List (String × String) :=
  [("uk", "DonorName"), ("germany", "Donor"), ("austria", "Donor"), ("italy", "Donor"),
   ("netherlands", "Donor"), ("estonia", "Donor"), ("latvia", "Donor"),
   ("lithuania", "Donor"), ("eu", "Donor")]

/-- Set insertion (`set.add`). -/
def insertUnique (acc : List String) (s : String) : List String :=
  if acc.contains s then acc else acc ++ [s]

/-- `all_donors` (app.py, lines 2003-2007): the union over the jurisdictions
of the non-missing donor values of the donor column (`dropna().unique()`;
donor columns hold strings). -/
def collectDonors (results : List (String × DataFrame)) : List String :=
  donorColumns.foldl (fun acc p =>
    match results.lookup p.1 with
    | none => acc
    | some df =>
      if df.rows.isEmpty then acc
      else if df.cols.contains p.2 then
        (df.rows.map (fun r => cellVal df.cols p.2 r.2)).foldl (fun a v =>
          match v with
          | .str s => insertUnique a s
          | _ => a) acc
      else acc) []

/-- Lexicographic order on character lists. -/
def lexLe : List Char → List Char → Bool
  | [], _ => true
  | _ :: _, [] => false
  | a :: as', b :: bs' => if a < b then true else if b < a then false else lexLe as' bs'

/-- The comparison of `sorted(all_donors, key=str.lower)`. -/
def lowerLe (a b : String) : Bool :=
  lexLe (pyLower a.data) (pyLower b.data)

/-- Insertion into a sorted list. -/
def insertSorted (le : String → String → Bool) (x : String) : List String → List String
  | [] => [x]
  | y :: rest => if le x y then x :: y :: rest else y :: insertSorted le x rest

/-- `sorted(…, key=str.lower)`. -/
def sortByLower (l : List String) : List String :=
  l.foldr (insertSorted lowerLe) []

/-- The checkbox loop of the exclusion panel (app.py, lines 2019-2030):
each donor whose checkbox is unchecked is added to the exclusion set, each
checked donor present in the set is discarded from it. -/
def exclusionPanelFold (includeChoice : String → Bool) (sorted : List String)
    (excluded : List String) : List String :=
  sorted.foldl (fun exc donor =>
    if !includeChoice donor then insertUnique exc donor
    else if exc.contains donor then exc.erase donor
    else exc) excluded

/-- The search handler (app.py, lines 1963-1983): on a pressed button with
a non-empty query the exclusion set is reset to empty, the query is stored,
and all jurisdictions are searched afresh; otherwise the session is kept. -/
def searchHandler (searchAll : String → List (String × DataFrame))
    (prior : Session) (inp : RunInputs) : Session :=
  if inp.searchButton ∧ inp.searchQuery ≠ "" then
    { excludedDonors := [], rawResults := searchAll inp.searchQuery,
      lastQuery := inp.searchQuery }
  else prior

/-- One run of the script body (app.py, lines 1963-2055): the search
handler, then — when results exist — the exclusion panel updates the
exclusion set from the current checkbox choices, and the displayed and
exported per-jurisdiction frames are the raw results with the exclusions
applied (`apply_exclusions`). -/
def runScript (searchAll : String → List (String × DataFrame))
    (prior : Session) (inp : RunInputs) : Session × List (String × DataFrame) :=
  let s1 := searchHandler searchAll prior inp
  if s1.rawResults ≠ [] ∧ s1.lastQuery ≠ "" then
    let sorted := sortByLower (collectDonors s1.rawResults)
    let excluded := exclusionPanelFold inp.includeChoice sorted s1.excludedDonors
    let filtered := donorColumns.map (fun p =>
      (p.1, apply_exclusions ((s1.rawResults.lookup p.1).getD ⟨[], []⟩) p.2 excluded))
    ({ s1 with excludedDonors := excluded }, filtered)
  else (s1, [])

/-! ### Filter algebra

Lemmas reducing the mask machinery of `apply_boolean_filter` to plain list
filters, used by the boolean-query claims. -/

theorem abf_unfold_term (df : DataFrame) (t : List Char) (column : String)
    (exclusions : List String) :
    apply_boolean_filter df (.TERM t) column exclusions
      = if df.rows.isEmpty then df
        else if df.cols.contains column = false then df
        else
          let result : DataFrame :=
            ⟨df.cols,
              maskFilter df.rows ((colLowerOf df column).map (fun s => strIn (pyLower t) s))⟩
          if !exclusions.isEmpty && !result.rows.isEmpty && result.cols.contains column then
            (⟨result.cols,
              result.rows.filter
                (fun r => !cellInExclusions exclusions (cellVal result.cols column r.2))⟩ : DataFrame)
          else result := rfl

theorem abf_unfold_not (df : DataFrame) (t : List Char) (column : String)
    (exclusions : List String) :
    apply_boolean_filter df (.NOT t) column exclusions
      = if df.rows.isEmpty then df
        else if df.cols.contains column = false then df
        else
          let result : DataFrame :=
            ⟨df.cols,
              maskFilter df.rows ((colLowerOf df column).map (fun s => !strIn (pyLower t) s))⟩
          if !exclusions.isEmpty && !result.rows.isEmpty && result.cols.contains column then
            (⟨result.cols,
              result.rows.filter
                (fun r => !cellInExclusions exclusions (cellVal result.cols column r.2))⟩ : DataFrame)
          else result := rfl

theorem abf_unfold_or (df : DataFrame) (subs : List BQuery) (column : String)
    (exclusions : List String) :
    apply_boolean_filter df (.OR subs) column exclusions
      = if df.rows.isEmpty then df
        else if df.cols.contains column = false then df
        else
          let result : DataFrame :=
            (let subResults := applyBFList df subs column
             let masks := (subResults.filter (fun r => r.rows.isEmpty = false)).map
               (fun r => df.rows.map (fun row => (r.rows.map Prod.fst).contains row.1))
             if masks.isEmpty then (⟨[], []⟩ : DataFrame)
             else ⟨df.cols, maskFilter df.rows (foldOrMasks masks)⟩)
          if !exclusions.isEmpty && !result.rows.isEmpty && result.cols.contains column then
            (⟨result.cols,
              result.rows.filter
                (fun r => !cellInExclusions exclusions (cellVal result.cols column r.2))⟩ : DataFrame)
          else result := rfl

theorem maskFilter_map {α : Type} (rows : List α) (h : α → Bool) :
    maskFilter rows (rows.map h) = rows.filter h := by
  induction rows with
  | nil => rfl
  | cons a t ih =>
    simp only [maskFilter, List.map_cons, List.zip_cons_cons, List.filterMap_cons] at *
    cases hha : h a <;> simp [hha, ih, List.filter_cons]

theorem orMask_map {α : Type} (l : List α) (f g : α → Bool) :
    orMask (l.map f) (l.map g) = l.map (fun x => f x || g x) := by
  induction l with
  | nil => rfl
  | cons a t ih =>
    simp only [orMask, List.map_cons, List.zipWith_cons_cons] at *
    rw [ih]

theorem filter_fst_contains {β : Type} [DecidableEq β] (rows : List (Nat × β))
    (p : Nat × β → Bool) (hnd : (rows.map Prod.fst).Nodup)
    (row : Nat × β) (hrow : row ∈ rows) :
    ((rows.filter p).map Prod.fst).contains row.1 = p row := by
  have hinj : ∀ x ∈ rows, ∀ y ∈ rows, x.1 = y.1 → x = y :=
    List.inj_on_of_nodup_map hnd
  cases hp : p row
  · rw [Bool.eq_false_iff]
    intro hcon
    rw [List.contains_eq_any_beq] at hcon
    simp only [List.any_eq_true, beq_iff_eq] at hcon
    obtain ⟨i, hi, hieq⟩ := hcon
    obtain ⟨x, hx, hxeq⟩ := List.mem_map.1 hi
    have hxrow : x ∈ rows := (List.mem_filter.1 hx).1
    have hxp : p x = true := (List.mem_filter.1 hx).2
    have : x = row := hinj x hxrow row hrow (by rw [hxeq, hieq])
    rw [this] at hxp
    rw [hxp] at hp
    exact absurd hp (by simp)
  · rw [List.contains_eq_any_beq]
    simp only [List.any_eq_true, beq_iff_eq]
    exact ⟨row.1, List.mem_map_of_mem Prod.fst (List.mem_filter.2 ⟨hrow, hp⟩), rfl⟩

/-- The row predicate a `TERM t` evaluates on each row. -/
def termPred (df : DataFrame) (column : String) (t : List Char) : Nat × List PValue → Bool :=
  fun r => strIn (pyLower t) (cellSearchText (cellVal df.cols column r.2))

theorem abf_empty (df : DataFrame) (q : BQuery) (column : String) (excl : List String)
    (h : df.rows.isEmpty = true) : apply_boolean_filter df q column excl = df := by
  cases q with
  | TERM t => rw [abf_unfold_term, if_pos h]
  | OR subs => rw [abf_unfold_or, if_pos h]
  | NOT t => rw [abf_unfold_not, if_pos h]

theorem abf_nocol (df : DataFrame) (q : BQuery) (column : String) (excl : List String)
    (h : df.cols.contains column = false) : apply_boolean_filter df q column excl = df := by
  by_cases he : df.rows.isEmpty = true
  · exact abf_empty df q column excl he
  · cases q with
    | TERM t => rw [abf_unfold_term, if_neg he, if_pos h]
    | OR subs => rw [abf_unfold_or, if_neg he, if_pos h]
    | NOT t => rw [abf_unfold_not, if_neg he, if_pos h]

theorem abf_term (df : DataFrame) (t : List Char) (column : String)
    (hne : df.rows.isEmpty = false) (hcol : df.cols.contains column = true) :
    apply_boolean_filter df (.TERM t) column []
      = ⟨df.cols, df.rows.filter (termPred df column t)⟩ := by
  rw [abf_unfold_term, if_neg (by rw [hne]; simp), if_neg (by rw [hcol]; simp)]
  simp only [List.isEmpty_nil, Bool.not_true, Bool.false_and, Bool.and_false, if_false,
    Bool.false_eq_true, if_neg]
  have : (colLowerOf df column).map (fun s => strIn (pyLower t) s)
      = df.rows.map (termPred df column t) := by
    rw [colLowerOf, List.map_map]
    rfl
  rw [this, maskFilter_map]

theorem abf_not (df : DataFrame) (t : List Char) (column : String)
    (hne : df.rows.isEmpty = false) (hcol : df.cols.contains column = true) :
    apply_boolean_filter df (.NOT t) column []
      = ⟨df.cols, df.rows.filter (fun r => !termPred df column t r)⟩ := by
  rw [abf_unfold_not, if_neg (by rw [hne]; simp), if_neg (by rw [hcol]; simp)]
  simp only [List.isEmpty_nil, Bool.not_true, Bool.false_and, Bool.and_false, if_false,
    Bool.false_eq_true, if_neg]
  have : (colLowerOf df column).map (fun s => !strIn (pyLower t) s)
      = df.rows.map (fun r => !termPred df column t r) := by
    rw [colLowerOf, List.map_map]
    rfl
  rw [this, maskFilter_map]

theorem apply_exclusions_nocol (df : DataFrame) (donorCol : String) (excl : List String)
    (h : df.cols.contains donorCol = false) : apply_exclusions df donorCol excl = df := by
  rw [apply_exclusions]
  by_cases he : (df.rows.isEmpty || excl.isEmpty) = true
  · rw [if_pos he]
  · rw [if_neg he, if_neg (by rw [h]; simp)]

theorem filter_or_congr (rows : List (Nat × List PValue)) (pa pb : Nat × List PValue → Bool)
    (hfb : rows.filter pb = []) :
    rows.filter (fun row => pa row || pb row) = rows.filter pa := by
  refine List.filter_congr (fun row hrow => ?_)
  have hpb : pb row = false := by
    have := List.filter_eq_nil_iff.mp hfb row hrow
    simpa using this
  rw [hpb, Bool.or_false]

theorem filter_or_congr' (rows : List (Nat × List PValue)) (pa pb : Nat × List PValue → Bool)
    (hfa : rows.filter pa = []) :
    rows.filter (fun row => pa row || pb row) = rows.filter pb := by
  refine List.filter_congr (fun row hrow => ?_)
  have hpa : pa row = false := by
    have := List.filter_eq_nil_iff.mp hfa row hrow
    simpa using this
  rw [hpa, Bool.false_or]

/-- In the non-degenerate case, the rows an `OR` of two `TERM`s keeps are
exactly the rows matching either term, in input order. -/
theorem abf_or_two (df : DataFrame) (a b : List Char) (column : String)
    (hne : df.rows.isEmpty = false) (hcol : df.cols.contains column = true)
    (hnd : (df.rows.map Prod.fst).Nodup) :
    (apply_boolean_filter df (.OR [.TERM a, .TERM b]) column []).rows
      = df.rows.filter
          (fun row => termPred df column a row || termPred df column b row) := by
  have hA := abf_term df a column hne hcol
  have hB := abf_term df b column hne hcol
  have hlist : applyBFList df [.TERM a, .TERM b] column
      = [apply_boolean_filter df (.TERM a) column [],
         apply_boolean_filter df (.TERM b) column []] := rfl
  rw [abf_unfold_or, if_neg (by simp [hne]), if_neg (by rw [hcol]; simp)]
  rw [hlist, hA, hB]
  simp only [List.isEmpty_nil, Bool.not_true, Bool.false_and, if_false, Bool.false_eq_true]
  by_cases hfa : df.rows.filter (termPred df column a) = []
  · by_cases hfb : df.rows.filter (termPred df column b) = []
    · rw [hfa, hfb]
      simp
      intro n cells hrow
      have ha := List.filter_eq_nil_iff.mp hfa (n, cells) hrow
      have hb := List.filter_eq_nil_iff.mp hfb (n, cells) hrow
      exact ⟨by simpa using ha, by simpa using hb⟩
    · rw [hfa]
      simp [List.filter_cons, List.isEmpty_iff, hfb, foldOrMasks, maskFilter_map]
      rw [filter_or_congr' df.rows _ _ hfa]
      refine List.filter_congr (fun row hrow => ?_)
      have h := filter_fst_contains df.rows (termPred df column b) hnd row hrow
      simpa using h
  · by_cases hfb : df.rows.filter (termPred df column b) = []
    · rw [hfb]
      simp [List.filter_cons, List.isEmpty_iff, hfa, foldOrMasks, maskFilter_map]
      rw [filter_or_congr df.rows _ _ hfb]
      refine List.filter_congr (fun row hrow => ?_)
      have h := filter_fst_contains df.rows (termPred df column a) hnd row hrow
      simpa using h
    · simp [List.filter_cons, List.isEmpty_iff, hfa, hfb, foldOrMasks, orMask_map,
        maskFilter_map]
      refine List.filter_congr (fun row hrow => ?_)
      have ha := filter_fst_contains df.rows (termPred df column a) hnd row hrow
      have hb := filter_fst_contains df.rows (termPred df column b) hnd row hrow
      simpa using congrArg₂ Bool.or ha hb

/-- C10.  If the named search column is absent from a record set's columns,
`apply_boolean_filter` returns the input record set completely unchanged
(no search filtering and no exclusion filtering — not an empty set), and
likewise `apply_exclusions` leaves a record set unchanged when the donor
column is absent. -/
theorem claim_C10_missing_column_identity :
    (∀ (df : DataFrame) (q : BQuery) (column : String) (excl : List String),
      df.cols.contains column = false → apply_boolean_filter df q column excl = df)
    ∧ (∀ (df : DataFrame) (donorCol : String) (excl : List String),
      df.cols.contains donorCol = false → apply_exclusions df donorCol excl = df) :=
  ⟨fun df q column excl h => abf_nocol df q column excl h,
   fun df donorCol excl h => apply_exclusions_nocol df donorCol excl h⟩

/-- A frame without a `Donor` column, with rows, used as a witness input. -/
def dfNoDonor : DataFrame :=
  ⟨["Name", "Amount"], [(0, [.str "Acme Corp", .num 100]), (1, [.str "Beta Ltd", .num 250])]⟩

theorem claim_C10_missing_column_identity_witness :
    dfNoDonor.cols.contains "Donor" = false
    ∧ apply_boolean_filter dfNoDonor (.TERM "acme".data) "Donor" [] = dfNoDonor
    ∧ apply_exclusions dfNoDonor "Donor" ["Acme Corp"] = dfNoDonor :=
  ⟨by decide,
   claim_C10_missing_column_identity.1 dfNoDonor (.TERM "acme".data) "Donor" [] (by decide),
   claim_C10_missing_column_identity.2 dfNoDonor "Donor" ["Acme Corp"] (by decide)⟩


/-! Bridging `apply_boolean_filter_re` to `apply_boolean_filter` on
metacharacter-free terms. -/

/-- A pattern with no parenthesis characters passes the balance check. -/
theorem parenScan_noparen : ∀ (pat : List Char), (∀ c ∈ pat, c ≠ '(' ∧ c ≠ ')') →
    ∀ k, parenScan pat k = decide (k = 0) := by
  intro pat
  induction pat with
  | nil =>
    intro _ k
    rfl
  | cons c rest ih =>
    intro h k
    have hc := h c (by simp)
    rw [parenScan.eq_5 k c rest (fun he => hc.1 he) (fun he => hc.2 he)]
    exact ih (fun x hx => h x (by simp [hx])) k

/-- On a metacharacter-free pattern, the regex containment test succeeds
and coincides with literal substring containment. -/
theorem pdStrContains_literal (pat s : List Char) (h : reLiteral pat = true) :
    pdStrContains pat s = .ok (strIn pat s) := by
  unfold pdStrContains
  rw [if_pos ?hp]
  case hp =>
    have hpp : ∀ c ∈ pat, c ≠ '(' ∧ c ≠ ')' := by
      intro c hc
      have hm := List.all_eq_true.mp h c hc
      constructor <;> (intro he; subst he; exact absurd hm (by decide))
    rw [parenScan_noparen pat hpp 0]
    rfl

theorem mapM_ok {α β : Type} (f : α → Except String β) (g : α → β) :
    ∀ (l : List α), (∀ x ∈ l, f x = .ok (g x)) → l.mapM f = .ok (l.map g) := by
  intro l
  induction l with
  | nil =>
    intro _
    rfl
  | cons a rest ih =>
    intro h
    rw [List.mapM_cons, h a (by simp), ih (fun x hx => h x (by simp [hx]))]
    rfl

theorem abfRe_unfold_term (df : DataFrame) (t : List Char) (column : String)
    (exclusions : List String) :
    apply_boolean_filter_re df (.TERM t) column exclusions
      = if df.rows.isEmpty then .ok df
        else if df.cols.contains column = false then .ok df
        else
          match (colLowerOf df column).mapM (fun s => pdStrContains (pyLower t) s) with
          | .error e => .error e
          | .ok mask =>
            let result : DataFrame := ⟨df.cols, maskFilter df.rows mask⟩
            .ok (if !exclusions.isEmpty && !result.rows.isEmpty
                  && result.cols.contains column then
              (⟨result.cols, result.rows.filter
                (fun r => !cellInExclusions exclusions (cellVal result.cols column r.2))⟩
                : DataFrame)
            else result) := rfl

theorem abfRe_unfold_not (df : DataFrame) (t : List Char) (column : String)
    (exclusions : List String) :
    apply_boolean_filter_re df (.NOT t) column exclusions
      = if df.rows.isEmpty then .ok df
        else if df.cols.contains column = false then .ok df
        else
          match (colLowerOf df column).mapM (fun s => pdStrContains (pyLower t) s) with
          | .error e => .error e
          | .ok mask =>
            let result : DataFrame := ⟨df.cols, maskFilter df.rows (mask.map (fun b => !b))⟩
            .ok (if !exclusions.isEmpty && !result.rows.isEmpty
                  && result.cols.contains column then
              (⟨result.cols, result.rows.filter
                (fun r => !cellInExclusions exclusions (cellVal result.cols column r.2))⟩
                : DataFrame)
            else result) := rfl

theorem abfRe_unfold_or (df : DataFrame) (subs : List BQuery) (column : String)
    (exclusions : List String) :
    apply_boolean_filter_re df (.OR subs) column exclusions
      = if df.rows.isEmpty then .ok df
        else if df.cols.contains column = false then .ok df
        else
          match applyBFListRe df subs column with
          | .error e => .error e
          | .ok subResults =>
            let masks := (subResults.filter (fun r => r.rows.isEmpty = false)).map
              (fun r => df.rows.map (fun row => (r.rows.map Prod.fst).contains row.1))
            let result : DataFrame :=
              if masks.isEmpty then (⟨[], []⟩ : DataFrame)
              else ⟨df.cols, maskFilter df.rows (foldOrMasks masks)⟩
            .ok (if !exclusions.isEmpty && !result.rows.isEmpty
                  && result.cols.contains column then
              (⟨result.cols, result.rows.filter
                (fun r => !cellInExclusions exclusions (cellVal result.cols column r.2))⟩
                : DataFrame)
            else result) := rfl

theorem applyBFListRe_nil (df : DataFrame) (column : String) :
    applyBFListRe df [] column = .ok [] := rfl

theorem applyBFListRe_cons (df : DataFrame) (q : BQuery) (rest : List BQuery)
    (column : String) :
    applyBFListRe df (q :: rest) column
      = match apply_boolean_filter_re df q column [] with
        | .error e => .error e
        | .ok r =>
          match applyBFListRe df rest column with
          | .error e => .error e
          | .ok rs => .ok (r :: rs) := rfl

/-- On a metacharacter-free term, the regex-aware `TERM` filter succeeds
and agrees with the substring filter. -/
theorem abfRe_term_literal (df : DataFrame) (t : List Char) (column : String)
    (h : reLiteral (pyLower t) = true) :
    apply_boolean_filter_re df (.TERM t) column []
      = .ok (apply_boolean_filter df (.TERM t) column []) := by
  rw [abfRe_unfold_term, abf_unfold_term]
  by_cases h1 : df.rows.isEmpty = true
  · rw [if_pos h1, if_pos h1]
  · rw [if_neg h1, if_neg h1]
    by_cases h2 : df.cols.contains column = false
    · rw [if_pos h2, if_pos h2]
    · rw [if_neg h2, if_neg h2]
      rw [mapM_ok (fun s => pdStrContains (pyLower t) s) (fun s => strIn (pyLower t) s)
        (colLowerOf df column) (fun s _ => pdStrContains_literal (pyLower t) s h)]

/-- On a metacharacter-free term, the regex-aware `NOT` filter succeeds
and agrees with the substring filter. -/
theorem abfRe_not_literal (df : DataFrame) (t : List Char) (column : String)
    (h : reLiteral (pyLower t) = true) :
    apply_boolean_filter_re df (.NOT t) column []
      = .ok (apply_boolean_filter df (.NOT t) column []) := by
  rw [abfRe_unfold_not, abf_unfold_not]
  by_cases h1 : df.rows.isEmpty = true
  · rw [if_pos h1, if_pos h1]
  · rw [if_neg h1, if_neg h1]
    by_cases h2 : df.cols.contains column = false
    · rw [if_pos h2, if_pos h2]
    · rw [if_neg h2, if_neg h2]
      have hmask : ((colLowerOf df column).map (fun s => strIn (pyLower t) s)).map
            (fun b => !b)
          = (colLowerOf df column).map (fun s => !strIn (pyLower t) s) := by
        rw [List.map_map]
        rfl
      rw [mapM_ok (fun s => pdStrContains (pyLower t) s) (fun s => strIn (pyLower t) s)
        (colLowerOf df column) (fun s _ => pdStrContains_literal (pyLower t) s h)]
      simp only [hmask]

/-- On two metacharacter-free terms, the regex-aware `OR` filter succeeds
and agrees with the substring filter. -/
theorem abfRe_orTerms_literal (df : DataFrame) (a b : List Char) (column : String)
    (ha : reLiteral (pyLower a) = true) (hb : reLiteral (pyLower b) = true) :
    apply_boolean_filter_re df (.OR [.TERM a, .TERM b]) column []
      = .ok (apply_boolean_filter df (.OR [.TERM a, .TERM b]) column []) := by
  have hlist : applyBFListRe df [.TERM a, .TERM b] column
      = .ok (applyBFList df [.TERM a, .TERM b] column) := by
    rw [applyBFListRe_cons, abfRe_term_literal df a column ha]
    rw [show applyBFListRe df [.TERM b] column
        = .ok (applyBFList df [.TERM b] column) from by
      rw [applyBFListRe_cons, abfRe_term_literal df b column hb, applyBFListRe_nil]
      rfl]
    rfl
  rw [abfRe_unfold_or, abf_unfold_or]
  by_cases h1 : df.rows.isEmpty = true
  · rw [if_pos h1, if_pos h1]
  · rw [if_neg h1, if_neg h1]
    by_cases h2 : df.cols.contains column = false
    · rw [if_pos h2, if_pos h2]
    · rw [if_neg h2, if_neg h2]
      rw [hlist]

/-- A three-row frame used by the C2 counterexample and witness. -/
def dfC2 : DataFrame :=
  ⟨["Donor"], [(0, [.str "Acme Corp"]), (1, [.str "Beta LLC"]), (2, [.str "Gamma"])]⟩

/-- C2 (counterexample).  The claim quantifies over every pair of terms,
but `col_lower.str.contains(term, na=False)` compiles the term as a
regular expression: for the term `"("` — an invalid pattern — evaluating
`Or([Term "(", Term "beta"])` (as parsed from the query `"( OR beta"`)
raises `re.error` out of the filter instead of returning the union of the
two term evaluations, as does evaluating `Term "("` alone. -/
theorem claim_C2_or_counterexample :
    apply_boolean_filter_re dfC2 (.OR [.TERM "(".data, .TERM "beta".data]) "Donor" []
      = .error "re.error"
    ∧ apply_boolean_filter_re dfC2 (.TERM "(".data) "Donor" [] = .error "re.error" :=
  ⟨rfl, rfl⟩

/-- C2 (amended).  For every pair of terms whose lowercased text is free
of regular-expression metacharacters — the range where the regex
containment of `str.contains` coincides with literal substring
containment — evaluating `Or([Term a, Term b])` succeeds and returns
exactly the union of the rows kept by `Term a` and by `Term b`: a row
survives iff it survives one of the two single-term filters, no surviving
row appears twice, and the surviving rows keep the relative order they had
in the input frame (the result is a sublist of the input rows — in fact
the stable filter of the input rows by the disjunction of the two term
predicates).  For other terms the code departs from the claim: an invalid
pattern raises `re.error` (see the counterexample), and metacharacter
terms match per regex semantics rather than literally. -/
theorem claim_C2_or_is_union (df : DataFrame) (a b : List Char) (column : String)
    (hne : df.rows.isEmpty = false) (hcol : df.cols.contains column = true)
    (hnd : (df.rows.map Prod.fst).Nodup)
    (hla : reLiteral (pyLower a) = true) (hlb : reLiteral (pyLower b) = true) :
    apply_boolean_filter_re df (.OR [.TERM a, .TERM b]) column []
        = .ok (apply_boolean_filter df (.OR [.TERM a, .TERM b]) column [])
    ∧ apply_boolean_filter_re df (.TERM a) column []
        = .ok (apply_boolean_filter df (.TERM a) column [])
    ∧ apply_boolean_filter_re df (.TERM b) column []
        = .ok (apply_boolean_filter df (.TERM b) column [])
    ∧ (∀ row, row ∈ (apply_boolean_filter df (.OR [.TERM a, .TERM b]) column []).rows
        ↔ row ∈ (apply_boolean_filter df (.TERM a) column []).rows
          ∨ row ∈ (apply_boolean_filter df (.TERM b) column []).rows)
    ∧ (apply_boolean_filter df (.OR [.TERM a, .TERM b]) column []).rows.Nodup
    ∧ List.Sublist (apply_boolean_filter df (.OR [.TERM a, .TERM b]) column []).rows df.rows
    ∧ (apply_boolean_filter df (.OR [.TERM a, .TERM b]) column []).rows
        = df.rows.filter
            (fun row => termPred df column a row || termPred df column b row) := by
  have hor := abf_or_two df a b column hne hcol hnd
  have hA := abf_term df a column hne hcol
  have hB := abf_term df b column hne hcol
  refine ⟨abfRe_orTerms_literal df a b column hla hlb,
    abfRe_term_literal df a column hla, abfRe_term_literal df b column hlb,
    ?_, ?_, ?_, hor⟩
  · intro row
    rw [hor, hA, hB]
    simp only [List.mem_filter, Bool.or_eq_true]
    tauto
  · rw [hor]
    exact (List.Nodup.of_map _ hnd).filter _
  · rw [hor]
    exact List.filter_sublist _

theorem claim_C2_or_is_union_witness :
    dfC2.rows.isEmpty = false ∧ dfC2.cols.contains "Donor" = true
      ∧ (dfC2.rows.map Prod.fst).Nodup
      ∧ reLiteral (pyLower "acme".data) = true ∧ reLiteral (pyLower "beta".data) = true
      ∧ apply_boolean_filter_re dfC2 (.OR [.TERM "acme".data, .TERM "beta".data]) "Donor" []
          = .ok (apply_boolean_filter dfC2 (.OR [.TERM "acme".data, .TERM "beta".data])
              "Donor" [])
      ∧ (apply_boolean_filter dfC2 (.OR [.TERM "acme".data, .TERM "beta".data]) "Donor" []).rows
          = dfC2.rows.filter
              (fun row => termPred dfC2 "Donor" "acme".data row
                || termPred dfC2 "Donor" "beta".data row) :=
  ⟨by decide, by decide, by decide, by decide, by decide,
   (claim_C2_or_is_union dfC2 "acme".data "beta".data "Donor"
      (by decide) (by decide) (by decide) (by decide) (by decide)).1,
   (claim_C2_or_is_union dfC2 "acme".data "beta".data "Donor"
      (by decide) (by decide) (by decide) (by decide) (by decide)).2.2.2.2.2.2⟩

/-- A one-row frame whose donor cell is missing (`NaN`), used to refute the
C3 parenthetical about null fields. -/
def dfC3 : DataFrame := ⟨["Donor"], [(0, [.NA])]⟩

/-- C3 (counterexample).  The claim's parenthetical — a missing/null field
never matches `Term(t)` and always passes `Not(t)` — fails in general, and
invalid terms do not partition at all.  For the empty term, a row with a
missing field DOES match `Term("")` (after `fillna('')`, `re.search` of
the empty pattern matches `''`) and is dropped by `Not("")`; and for the
term `"("`, an invalid pattern, the evaluation raises `re.error` instead
of splitting the rows. -/
theorem claim_C3_null_counterexample :
    apply_boolean_filter_re dfC3 (.TERM []) "Donor" []
      = .ok ⟨["Donor"], [(0, [PValue.NA])]⟩
    ∧ apply_boolean_filter_re dfC3 (.NOT []) "Donor" [] = .ok ⟨["Donor"], []⟩
    ∧ apply_boolean_filter_re dfC3 (.TERM "(".data) "Donor" [] = .error "re.error" :=
  ⟨rfl, rfl, rfl⟩

/-- C3 (amended).  For every term whose lowercased text is free of
regular-expression metacharacters, evaluating `Term(t)` and `Not(t)`
succeeds (no `re.error`), and the two surviving row lists partition the
input rows: no row survives both, and together they are a permutation of
the input.  The parenthetical about missing/null fields holds for every
NON-empty such term: a row whose selected cell is missing passes the `Not`
filter and never matches the `Term` filter.  (Outside this range the
original claim fails: the empty term matches every row including
null-field ones, a pattern such as `x*` can match the `fillna('')` value
of a null field, and an invalid pattern raises — see the
counterexample.) -/
theorem claim_C3_amended_partition (df : DataFrame) (t : List Char) (column : String)
    (hne : df.rows.isEmpty = false) (hcol : df.cols.contains column = true)
    (hlit : reLiteral (pyLower t) = true) :
    apply_boolean_filter_re df (.TERM t) column []
        = .ok (apply_boolean_filter df (.TERM t) column [])
    ∧ apply_boolean_filter_re df (.NOT t) column []
        = .ok (apply_boolean_filter df (.NOT t) column [])
    ∧ (∀ row, ¬(row ∈ (apply_boolean_filter df (.TERM t) column []).rows
              ∧ row ∈ (apply_boolean_filter df (.NOT t) column []).rows))
    ∧ List.Perm
        ((apply_boolean_filter df (.TERM t) column []).rows
          ++ (apply_boolean_filter df (.NOT t) column []).rows)
        df.rows
    ∧ (t ≠ [] → ∀ row ∈ df.rows, cellVal df.cols column row.2 = .NA →
        row ∈ (apply_boolean_filter df (.NOT t) column []).rows
        ∧ row ∉ (apply_boolean_filter df (.TERM t) column []).rows) := by
  have hT := abf_term df t column hne hcol
  have hN := abf_not df t column hne hcol
  refine ⟨abfRe_term_literal df t column hlit, abfRe_not_literal df t column hlit,
    ?_, ?_, ?_⟩
  · rintro row ⟨h1, h2⟩
    rw [hT] at h1
    rw [hN] at h2
    simp only [List.mem_filter, Bool.not_eq_true'] at h1 h2
    exact absurd (h1.2.symm.trans h2.2) (by decide)
  · rw [hT, hN]
    exact List.filter_append_perm _ _
  · intro ht row hrow hna
    have hpred : termPred df column t row = false := by
      unfold termPred
      rw [hna]
      cases t with
      | nil => exact absurd rfl ht
      | cons c cs => simp [cellSearchText, strIn, pyLower]
    constructor
    · rw [hN]
      simp [List.mem_filter, hrow, hpred]
    · rw [hT]
      simp [List.mem_filter, hpred]

/-- A two-row frame with one missing donor cell, exercising the amended C3. -/
def dfC3w : DataFrame := ⟨["Donor"], [(0, [.str "Acme Corp"]), (1, [.NA])]⟩

theorem claim_C3_amended_partition_witness :
    dfC3w.rows.isEmpty = false ∧ dfC3w.cols.contains "Donor" = true
    ∧ reLiteral (pyLower "acme".data) = true
    ∧ apply_boolean_filter_re dfC3w (.NOT "acme".data) "Donor" []
        = .ok (apply_boolean_filter dfC3w (.NOT "acme".data) "Donor" [])
    ∧ ("acme".data ≠ [] ∧ (1, [PValue.NA]) ∈ dfC3w.rows
       ∧ cellVal dfC3w.cols "Donor" ((1 : Nat), [PValue.NA]).2 = .NA)
    ∧ ((1, [PValue.NA]) ∈ (apply_boolean_filter dfC3w (.NOT "acme".data) "Donor" []).rows
       ∧ (1, [PValue.NA]) ∉ (apply_boolean_filter dfC3w (.TERM "acme".data) "Donor" []).rows) :=
  ⟨by decide, by decide, by decide,
   (claim_C3_amended_partition dfC3w "acme".data "Donor"
      (by decide) (by decide) (by decide)).2.1,
   ⟨by decide, by decide, by decide⟩,
   (claim_C3_amended_partition dfC3w "acme".data "Donor"
      (by decide) (by decide) (by decide)).2.2.2.2
     (by decide) (1, [PValue.NA]) (by decide) (by decide)⟩

/-- C1 (code bug).  The spec says every jurisdiction adapter absorbs all
failures at its boundary and never propagates an exception.  But the simple
(non-boolean) query path of `search_estonia_donations` passes the raw query
to `df['Donor'].str.lower().str.contains(query_lower, na=False)`, which
compiles it as a regular expression with no surrounding `try`: on the query
`"("` the pattern is invalid and `re.error` propagates to the caller
instead of an empty or partial result. -/
theorem claim_C1_adapter_raises :
    search_estonia_donations "(".data = .error "re.error" := rfl

/-- Prepend-to-first-segment: how one scanned character (or the pending
`current` text) attaches to the first segment of the remaining split. -/
def mapFirst (f : List Char → List Char) : List (List Char) → List (List Char)
  | [] => []
  | x :: xs => f x :: xs

/-- Specification-side post-processing of the split: trim every segment and
drop the empty ones (`[p.strip() for p in parts if p.strip()]`). -/
def stripFilter (segs : List (List Char)) : List (List Char) :=
  (segs.map pyStrip).filter (fun s => !s.isEmpty)

theorem stripFilter_cons (x : List Char) (xs : List (List Char)) :
    stripFilter (x :: xs) = stripPush x ++ stripFilter xs := by
  unfold stripFilter stripPush
  by_cases h : pyStrip x = [] <;> simp [h, List.filter_cons, List.isEmpty_iff]

theorem mapFirst_comp (f g : List Char → List Char) (l : List (List Char)) :
    mapFirst f (mapFirst g l) = mapFirst (fun x => f (g x)) l := by
  cases l <;> rfl

theorem mapFirst_id_append (l : List (List Char)) :
    mapFirst (fun s => [] ++ s) l = l := by
  cases l <;> rfl

theorem char_beq_decide (x y : Char) : (x == y) = decide (x = y) := rfl

/-- The loop's four-character lookahead is exactly a `" OR "` prefix of the
uppercased remainder. -/
theorem sepHead_eq_isPrefixOf (l : List Char) :
    sepHead l = (" OR ".data).isPrefixOf (pyUpper l) := by
  rcases l with _ | ⟨a, _ | ⟨b, _ | ⟨c, _ | ⟨d, tl⟩⟩⟩⟩ <;>
    simp [sepHead, pyUpper, List.isPrefixOf, Bool.and_assoc, char_beq_decide, eq_comm]

theorem strIn_cons (n : List Char) (x : Char) (xs : List Char) :
    strIn n (x :: xs) = (n.isPrefixOf (x :: xs) || strIn n xs) := rfl

/-- `' OR ' in query.upper()` holds exactly when the independent splitter
finds a separator. -/
theorem strIn_sep_eq_isSome (l : List Char) :
    strIn (" OR ".data) (pyUpper l) = (splitFirstOr l).isSome := by
  induction l with
  | nil => rfl
  | cons c rest ih =>
    show strIn (" OR ".data) (Char.toUpper c :: List.map Char.toUpper rest) = _
    rw [strIn_cons]
    rw [show List.map Char.toUpper rest = pyUpper rest from rfl, ih]
    have h2 : (" OR ".data).isPrefixOf (Char.toUpper c :: pyUpper rest)
        = sepHead (c :: rest) := by
      have := sepHead_eq_isPrefixOf (c :: rest)
      simpa [pyUpper] using this.symm
    rw [h2]
    by_cases hsep : sepHead (c :: rest) = true
    · simp [splitFirstOr, hsep]
    · simp [splitFirstOr, hsep]

/-- When the head is not a separator, the scanned character joins the first
segment of the split of the tail. -/
theorem orSegments_cons_nosep (c : Char) (rest : List Char)
    (h : sepHead (c :: rest) = false) :
    orSegments (c :: rest) = mapFirst (fun s => c :: s) (orSegments rest) := by
  cases hsp : splitFirstOr rest with
  | none =>
    have hc : splitFirstOr (c :: rest) = none := by simp [splitFirstOr, h, hsp]
    rw [orSegments_def, hc, orSegments_def rest, hsp]
    rfl
  | some p =>
    obtain ⟨b, a⟩ := p
    have hc : splitFirstOr (c :: rest) = some (c :: b, a) := by
      simp [splitFirstOr, h, hsp]
    rw [orSegments_def, hc, orSegments_def rest, hsp]
    rfl

/-- The splitting loop agrees with the independent splitter: the scan of
`cs` with pending text `current` and already-emitted `parts` emits `parts`
followed by the trimmed non-empty segments of `current ++ cs`. -/
theorem orScan_eq_segments (n : Nat) : ∀ (cs : List Char), cs.length ≤ n →
    ∀ (current : List Char) (parts : List (List Char)),
    orScan cs current parts
      = parts ++ stripFilter (mapFirst (fun s => current ++ s) (orSegments cs)) := by
  induction n with
  | zero =>
    intro cs hn current parts
    have : cs = [] := List.length_eq_zero.mp (Nat.le_zero.mp hn)
    subst this
    rw [orScan_nil]
    rw [show orSegments [] = [[]] from rfl]
    show parts ++ stripPush current = parts ++ stripFilter [current ++ []]
    rw [List.append_nil, stripFilter_cons]
    simp [stripFilter]
  | succ m ih =>
    intro cs hn current parts
    match cs with
    | [] =>
      rw [orScan_nil]
      rw [show orSegments [] = [[]] from rfl]
      show parts ++ stripPush current = parts ++ stripFilter [current ++ []]
      rw [List.append_nil, stripFilter_cons]
      simp [stripFilter]
    | c :: rest =>
      rw [orScan_cons]
      simp only [List.length_cons] at hn
      by_cases hsep : sepHead (c :: rest) = true
      · rw [if_pos hsep]
        rw [ih (rest.drop 3) (by simp only [List.length_drop]; omega) []
          (parts ++ stripPush current)]
        have hseg : orSegments (c :: rest) = [] :: orSegments (rest.drop 3) := by
          rw [orSegments_def]
          simp [splitFirstOr, hsep]
        rw [hseg, mapFirst_id_append]
        rw [show mapFirst (fun s => current ++ s) ([] :: orSegments (rest.drop 3))
            = (current ++ []) :: orSegments (rest.drop 3) from rfl]
        rw [List.append_nil, stripFilter_cons, List.append_assoc]
      · rw [if_neg hsep]
        rw [ih rest (by omega) (current ++ [c]) parts]
        have hseg := orSegments_cons_nosep c rest (by simpa using hsep)
        rw [hseg, mapFirst_comp]
        have hfun : (fun x => current ++ (c :: x)) = (fun x => (current ++ [c]) ++ x) := by
          funext x
          rw [List.append_cons]
        rw [hfun]

/-- The whole splitting loop, started as the source starts it. -/
theorem orScan_segments (cs : List Char) :
    orScan cs [] [] = stripFilter (orSegments cs) := by
  rw [orScan_eq_segments cs.length cs le_rfl [] [], mapFirst_id_append, List.nil_append]

/-- C4.  `parse_boolean_query` on any raw query: a trimmed query whose
uppercase form starts with the word `"NOT "` parses as `Not` of the trimmed
remainder; otherwise, when the trimmed query contains the separator
`" OR "` (case-insensitively — stated via the independent splitter
`splitFirstOr`), the query is split at every separator occurrence, the
segments are whitespace-trimmed, empty segments are dropped, and more than
one surviving segment parses as `Or` of the recursively parsed segments in
order (one or zero surviving segments fall back to a `Term`); a query
matching neither case parses as `Term` of the trimmed text. -/
theorem claim_C4_parser_cases (q : List Char) :
    (("NOT ".data).isPrefixOf (pyUpper (pyStrip q)) = true →
        parse_boolean_query q = .NOT (pyStrip ((pyStrip q).drop 4)))
    ∧ (("NOT ".data).isPrefixOf (pyUpper (pyStrip q)) = false →
        (splitFirstOr (pyStrip q)).isSome = true →
        parse_boolean_query q
          = if 1 < (stripFilter (orSegments (pyStrip q))).length then
              .OR ((stripFilter (orSegments (pyStrip q))).map parse_boolean_query)
            else .TERM (pyStrip q))
    ∧ (("NOT ".data).isPrefixOf (pyUpper (pyStrip q)) = false →
        (splitFirstOr (pyStrip q)).isSome = false →
        parse_boolean_query q = .TERM (pyStrip q)) := by
  have hdef := parse_boolean_query_def q
  have hor := strIn_sep_eq_isSome (pyStrip q)
  have hscan := orScan_segments (pyStrip q)
  refine ⟨?_, ?_, ?_⟩
  · intro h
    rw [hdef, if_pos h]
  · intro hnot hsome
    rw [hdef, if_neg (by rw [hnot]; simp), if_pos (by rw [hor, hsome])]
    rw [hscan]
  · intro hnot hsome
    rw [hdef, if_neg (by rw [hnot]; simp), if_neg (by rw [hor, hsome]; simp)]

theorem claim_C4_parser_cases_witness :
    (("NOT ".data).isPrefixOf (pyUpper (pyStrip "NOT Acme Corp".data)) = true
      ∧ parse_boolean_query "NOT Acme Corp".data = .NOT "Acme Corp".data)
    ∧ (("NOT ".data).isPrefixOf (pyUpper (pyStrip "Acme OR Beta".data)) = false
      ∧ (splitFirstOr (pyStrip "Acme OR Beta".data)).isSome = true
      ∧ parse_boolean_query "Acme OR Beta".data
          = .OR [.TERM "Acme".data, .TERM "Beta".data])
    ∧ (("NOT ".data).isPrefixOf (pyUpper (pyStrip "Acme Corp".data)) = false
      ∧ (splitFirstOr (pyStrip "Acme Corp".data)).isSome = false
      ∧ parse_boolean_query "Acme Corp".data = .TERM "Acme Corp".data) :=
  ⟨⟨by decide,
    by rw [(claim_C4_parser_cases ("NOT Acme Corp".data)).1 (by decide)]; rfl⟩,
   ⟨by decide, by decide,
    by rw [(claim_C4_parser_cases ("Acme OR Beta".data)).2.1 (by decide) (by decide)]; rfl⟩,
   ⟨by decide, by decide,
    by rw [(claim_C4_parser_cases ("Acme Corp".data)).2.2 (by decide) (by decide)]; rfl⟩⟩


/-- Digit groups joined by a separator character: the shape of a grouped
amount string such as `1.000` or `500,000`. -/
def dotted (sep : Char) : List (List Char) → List Char
  | [] => []
  | g :: gs =>
    match gs with
    | [] => g
    | _ :: _ => g ++ sep :: dotted sep gs

/-- A continental-convention amount string: `.`-separated digit groups,
a `,` decimal separator, then the fraction digits (e.g. `1.000,00`). -/
def continentalAmount (groups : List (List Char)) (frac : List Char) : List Char :=
  dotted '.' groups ++ ',' :: frac

/-- A UK-convention amount string: leading `£`, `,`-separated digit groups,
a `.` decimal separator, then the fraction digits (e.g. `£500,000.00`). -/
def ukAmount (groups : List (List Char)) (frac : List Char) : List Char :=
  '£' :: (dotted ',' groups ++ '.' :: frac)

theorem dotted_single (sep : Char) (g : List Char) : dotted sep [g] = g := rfl

theorem dotted_cons2 (sep : Char) (g g2 : List Char) (gs : List (List Char)) :
    dotted sep (g :: g2 :: gs) = g ++ sep :: dotted sep (g2 :: gs) := rfl

theorem dotted_mem (sep : Char) (groups : List (List Char)) (c : Char)
    (hc : c ∈ dotted sep groups) : c = sep ∨ ∃ g ∈ groups, c ∈ g := by
  induction groups with
  | nil => cases hc
  | cons g gs ih =>
    cases gs with
    | nil =>
      rw [dotted_single] at hc
      exact Or.inr ⟨g, by simp, hc⟩
    | cons g2 gs2 =>
      rw [dotted_cons2] at hc
      rcases List.mem_append.1 hc with h | h
      · exact Or.inr ⟨g, by simp, h⟩
      · rcases List.mem_cons.1 h with h | h
        · exact Or.inl h
        · rcases ih h with h | ⟨g', hg', hcg⟩
          · exact Or.inl h
          · exact Or.inr ⟨g', by simp [hg'], hcg⟩

theorem digit_ne {c : Char} (h : c.isDigit = true) (d : Char)
    (hd : d.isDigit = false) : c ≠ d := by
  intro he
  subst he
  rw [h] at hd
  cases hd

theorem digit_not_space {c : Char} (h : c.isDigit = true) : pyIsSpace c = false := by
  cases hc : pyIsSpace c
  · rfl
  · exfalso
    simp only [pyIsSpace, Bool.or_eq_true, decide_eq_true_eq] at hc
    rcases hc with ((((h1 | h1) | h1) | h1) | h1) | h1 <;> subst h1 <;>
      exact absurd h (by decide)

theorem pyStrip_no_space (l : List Char) (h : ∀ c ∈ l, pyIsSpace c = false) :
    pyStrip l = l := by
  unfold pyStrip
  have h1 : l.dropWhile pyIsSpace = l := by
    cases l with
    | nil => rfl
    | cons c rest =>
      rw [List.dropWhile_cons, if_neg (by rw [h c (by simp)]; simp)]
  rw [h1]
  have h2 : l.reverse.dropWhile pyIsSpace = l.reverse := by
    cases hr : l.reverse with
    | nil => rfl
    | cons c rest =>
      have hc : c ∈ l := by
        rw [← List.mem_reverse, hr]
        simp
      rw [List.dropWhile_cons, if_neg (by rw [h c hc]; simp)]
  rw [h2, List.reverse_reverse]

theorem takeWhile_all_append (p : Char → Bool) (l r : List Char)
    (hl : ∀ c ∈ l, p c = true) (hr : ∀ x, r.head? = some x → p x = false) :
    (l ++ r).takeWhile p = l ∧ (l ++ r).dropWhile p = r := by
  induction l with
  | nil =>
    cases r with
    | nil => exact ⟨rfl, rfl⟩
    | cons x rest =>
      constructor
      · simp [List.takeWhile_cons, hr x rfl]
      · simp [List.dropWhile_cons, hr x rfl]
  | cons c rest ih =>
    have hc : p c = true := hl c (by simp)
    have ih' := ih (fun c hc => hl c (by simp [hc]))
    constructor
    · simp [List.takeWhile_cons, hc, ih'.1]
    · simp [List.dropWhile_cons, hc, ih'.2]

theorem pyReplace_single_delete (x : Char) (l : List Char) :
    pyReplace [x] [] l = l.filter (fun c => !(c == x)) := by
  induction l with
  | nil => rfl
  | cons c rest ih =>
    rw [pyReplace_cons]
    by_cases h : c = x
    · subst h
      rw [if_pos ⟨by simp, by simp [List.isPrefixOf]⟩]
      simp [List.filter_cons, ih]
    · rw [if_neg (by simp [List.isPrefixOf, char_beq_decide]; intro hx; exact absurd hx.symm h)]
      simp [List.filter_cons, char_beq_decide, h, ih]

theorem pyReplace_single_map (x y : Char) (l : List Char) :
    pyReplace [x] [y] l = l.map (fun c => if c = x then y else c) := by
  induction l with
  | nil => rfl
  | cons c rest ih =>
    rw [pyReplace_cons]
    by_cases h : c = x
    · subst h
      rw [if_pos ⟨by simp, by simp [List.isPrefixOf]⟩]
      simp [ih]
    · rw [if_neg (by simp [List.isPrefixOf, char_beq_decide]; intro hx; exact absurd hx.symm h)]
      simp [h, ih]

theorem pyFloat_digits_frac (ds frac : List Char) (hne : ds ≠ [])
    (hd : ∀ c ∈ ds, c.isDigit = true) (hf : ∀ c ∈ frac, c.isDigit = true) :
    pyFloat (ds ++ '.' :: frac)
      = some ((digitsVal ds : Rat)
          + (digitsVal frac : Rat) / (10 : Rat) ^ frac.length) := by
  have hns : ∀ c ∈ ds ++ '.' :: frac, pyIsSpace c = false := by
    intro c hc
    rcases List.mem_append.1 hc with h | h
    · exact digit_not_space (hd c h)
    · rcases List.mem_cons.1 h with h | h
      · subst h
        decide
      · exact digit_not_space (hf c h)
  obtain ⟨d0, ds', rfl⟩ : ∃ d0 ds', ds = d0 :: ds' := by
    cases ds with
    | nil => exact absurd rfl hne
    | cons a b => exact ⟨a, b, rfl⟩
  have htw := takeWhile_all_append Char.isDigit (d0 :: ds') ('.' :: frac) hd
    (by
      intro x hx
      rw [List.head?_cons, Option.some.injEq] at hx
      subst hx
      decide)
  have hd0 : d0.isDigit = true := hd d0 (by simp)
  simp only [List.cons_append] at htw
  have hstrip := pyStrip_no_space _ hns
  simp only [List.cons_append] at hstrip
  simp only [pyFloat, List.cons_append, hstrip, List.head?_cons, Option.some.injEq]
  have h1 : (d0 = '-') = False := eq_false (digit_ne hd0 '-' (by decide))
  have h2 : (d0 = '+') = False := eq_false (digit_ne hd0 '+' (by decide))
  simp only [h1, h2, if_false]
  rw [htw.1, htw.2]
  have hfall : frac.all Char.isDigit = true := List.all_eq_true.mpr hf
  simp [hfall]

theorem filter_ne_of_all (x : Char) (l : List Char) (h : ∀ c ∈ l, c ≠ x) :
    l.filter (fun c => !(c == x)) = l :=
  List.filter_eq_self.mpr (fun c hc => by simp [char_beq_decide, h c hc])

theorem map_id_of_ne (x y : Char) (l : List Char) (h : ∀ c ∈ l, c ≠ x) :
    l.map (fun c => if c = x then y else c) = l :=
  (List.map_congr_left (fun c hc => by rw [if_neg (h c hc)]; rfl)).trans (List.map_id l)

theorem dotted_filter (sep : Char) (groups : List (List Char))
    (h : ∀ g ∈ groups, ∀ c ∈ g, c ≠ sep) :
    (dotted sep groups).filter (fun c => !(c == sep)) = groups.join := by
  induction groups with
  | nil => rfl
  | cons g gs ih =>
    cases gs with
    | nil =>
      rw [dotted_single, filter_ne_of_all sep g (fun c hc => h g (by simp) c hc)]
      simp
    | cons g2 gs2 =>
      rw [dotted_cons2, List.filter_append, List.filter_cons,
        filter_ne_of_all sep g (fun c hc => h g (by simp) c hc),
        ih (fun g' hg' c hc => h g' (by simp [hg']) c hc)]
      simp [char_beq_decide]

theorem join_digits {groups : List (List Char)}
    (hg : ∀ g ∈ groups, g ≠ [] ∧ ∀ c ∈ g, c.isDigit = true) :
    ∀ c ∈ groups.join, c.isDigit = true := by
  intro c hc
  obtain ⟨g, hgm, hcg⟩ := List.mem_join.1 hc
  exact (hg g hgm).2 c hcg

theorem join_ne_nil {groups : List (List Char)} (hgne : groups ≠ [])
    (hg : ∀ g ∈ groups, g ≠ [] ∧ ∀ c ∈ g, c.isDigit = true) :
    groups.join ≠ [] := by
  cases groups with
  | nil => exact absurd rfl hgne
  | cons g gs =>
    have hgn := (hg g (by simp)).1
    cases g with
    | nil => exact absurd rfl hgn
    | cons d ds => simp

theorem continentalFloat_amount (groups : List (List Char)) (frac : List Char)
    (hgne : groups ≠ [])
    (hg : ∀ g ∈ groups, g ≠ [] ∧ ∀ c ∈ g, c.isDigit = true)
    (hf : ∀ c ∈ frac, c.isDigit = true) :
    continentalFloat (continentalAmount groups frac)
      = some ((digitsVal groups.join : Rat)
          + (digitsVal frac : Rat) / (10 : Rat) ^ frac.length) := by
  unfold continentalFloat continentalAmount
  rw [pyReplace_single_delete, List.filter_append,
    dotted_filter '.' groups (fun g hg' c hc => digit_ne ((hg g hg').2 c hc) '.' (by decide)),
    List.filter_cons,
    filter_ne_of_all '.' frac (fun c hc => digit_ne (hf c hc) '.' (by decide))]
  simp only [show (!(',' == '.')) = true from rfl, if_true]
  rw [pyReplace_single_map, List.map_append, List.map_cons,
    map_id_of_ne ',' '.' groups.join
      (fun c hc => digit_ne (join_digits hg c hc) ',' (by decide)),
    map_id_of_ne ',' '.' frac (fun c hc => digit_ne (hf c hc) ',' (by decide))]
  simp only [if_pos rfl]
  exact pyFloat_digits_frac groups.join frac (join_ne_nil hgne hg) (join_digits hg) hf

theorem ukValueNumeric_amount (groups : List (List Char)) (frac : List Char)
    (hgne : groups ≠ [])
    (hg : ∀ g ∈ groups, g ≠ [] ∧ ∀ c ∈ g, c.isDigit = true)
    (hf : ∀ c ∈ frac, c.isDigit = true) :
    ukValueNumeric (ukAmount groups frac)
      = some ((digitsVal groups.join : Rat)
          + (digitsVal frac : Rat) / (10 : Rat) ^ frac.length) := by
  have hdm : ∀ c ∈ dotted ',' groups, c ≠ '£' := by
    intro c hc
    rcases dotted_mem ',' groups c hc with h | ⟨g, hgm, hcg⟩
    · subst h
      decide
    · exact digit_ne ((hg g hgm).2 c hcg) '£' (by decide)
  unfold ukValueNumeric ukAmount
  rw [pyReplace_single_delete '£', List.filter_cons]
  simp only [show (!('£' == '£')) = false from rfl, Bool.false_eq_true, if_false]
  rw [List.filter_append, filter_ne_of_all '£' (dotted ',' groups) hdm,
    List.filter_cons,
    filter_ne_of_all '£' frac (fun c hc => digit_ne (hf c hc) '£' (by decide))]
  simp only [show (!('.' == '£')) = true from rfl, if_true]
  rw [pyReplace_single_delete ',', List.filter_append,
    dotted_filter ',' groups (fun g hg' c hc => digit_ne ((hg g hg').2 c hc) ',' (by decide)),
    List.filter_cons,
    filter_ne_of_all ',' frac (fun c hc => digit_ne (hf c hc) ',' (by decide))]
  simp only [show (!('.' == ',')) = true from rfl, if_true]
  exact pyFloat_digits_frac groups.join frac (join_ne_nil hgne hg) (join_digits hg) hf

theorem euroAmountCapture_cons (c : Char) (rest : List Char) :
    euroAmountCapture (c :: rest)
      = if isAmountChar c then
          if ("Euro".data).isPrefixOf
              (((c :: rest).dropWhile isAmountChar).dropWhile pyIsSpace) then
            some ((c :: rest).takeWhile isAmountChar)
          else euroAmountCapture rest
        else euroAmountCapture rest := rfl

theorem bundestagAmount_amount (groups : List (List Char)) (frac : List Char)
    (hgne : groups ≠ [])
    (hg : ∀ g ∈ groups, g ≠ [] ∧ ∀ c ∈ g, c.isDigit = true)
    (hf : ∀ c ∈ frac, c.isDigit = true) :
    bundestagAmount (continentalAmount groups frac ++ ' ' :: "Euro".data)
      = (digitsVal groups.join : Rat)
          + (digitsVal frac : Rat) / (10 : Rat) ^ frac.length := by
  have hall : ∀ c ∈ continentalAmount groups frac, isAmountChar c = true := by
    intro c hc
    unfold continentalAmount at hc
    rcases List.mem_append.1 hc with h | h
    · rcases dotted_mem '.' groups c h with h | ⟨g, hgm, hcg⟩
      · subst h
        decide
      · simp [isAmountChar, (hg g hgm).2 c hcg]
    · rcases List.mem_cons.1 h with h | h
      · subst h
        decide
      · simp [isAmountChar, hf c h]
  obtain ⟨g0, gs, rfl⟩ : ∃ g0 gs, groups = g0 :: gs := by
    cases groups with
    | nil => exact absurd rfl hgne
    | cons a b => exact ⟨a, b, rfl⟩
  obtain ⟨d, ds, rfl⟩ : ∃ d ds, g0 = d :: ds := by
    have := (hg g0 (by simp)).1
    cases g0 with
    | nil => exact absurd rfl this
    | cons a b => exact ⟨a, b, rfl⟩
  obtain ⟨rest, hrest⟩ : ∃ rest, continentalAmount ((d :: ds) :: gs) frac = d :: rest := by
    cases gs with
    | nil => exact ⟨_, rfl⟩
    | cons g2 gs2 => exact ⟨_, rfl⟩
  have hcapeq : continentalAmount ((d :: ds) :: gs) frac ++ ' ' :: "Euro".data
      = d :: (rest ++ ' ' :: "Euro".data) := by
    rw [hrest]
    rfl
  have hall' : ∀ c ∈ d :: rest, isAmountChar c = true := by
    rw [← hrest]
    exact hall
  have htw := takeWhile_all_append isAmountChar (d :: rest) (' ' :: "Euro".data) hall'
    (by
      intro x hx
      rw [List.head?_cons, Option.some.injEq] at hx
      subst hx
      decide)
  simp only [List.cons_append] at htw
  have hcap : euroAmountCapture (continentalAmount ((d :: ds) :: gs) frac ++ ' ' :: "Euro".data)
      = some (continentalAmount ((d :: ds) :: gs) frac) := by
    rw [hcapeq, euroAmountCapture_cons, if_pos (hall' d (by simp)), htw.2]
    rw [show (' ' :: "Euro".data).dropWhile pyIsSpace = "Euro".data from rfl]
    rw [if_pos (by decide), htw.1, hrest]
  unfold bundestagAmount
  rw [hcap]
  show (continentalFloat (continentalAmount ((d :: ds) :: gs) frac)).getD 0 = _
  rw [continentalFloat_amount ((d :: ds) :: gs) frac hgne hg hf]
  rfl

/-- C5.  For every amount string in a jurisdiction's documented locale
convention — digit groups and fraction digits rendered with the locale's
separators — the adapter's amount parsing yields the correct numeric value
(the grouped digits concatenated, plus the fraction): the continental
cleanup `replace('.','').replace(',','.')` + `float` shared by the
Bundestag scraper and the Austrian CSV parser parses
`continentalAmount` strings; the Bundestag regex + cleanup parses a
continental amount followed by `Euro`; the UK cleanup
`str.replace('£','').str.replace(',','')` + `astype(float)` parses
`ukAmount` strings. -/
theorem claim_C5_locale_amounts (groups : List (List Char)) (frac : List Char)
    (hgne : groups ≠ [])
    (hg : ∀ g ∈ groups, g ≠ [] ∧ ∀ c ∈ g, c.isDigit = true)
    (hf : ∀ c ∈ frac, c.isDigit = true) :
    continentalFloat (continentalAmount groups frac)
        = some ((digitsVal groups.join : Rat)
            + (digitsVal frac : Rat) / (10 : Rat) ^ frac.length)
    ∧ bundestagAmount (continentalAmount groups frac ++ ' ' :: "Euro".data)
        = (digitsVal groups.join : Rat)
            + (digitsVal frac : Rat) / (10 : Rat) ^ frac.length
    ∧ ukValueNumeric (ukAmount groups frac)
        = some ((digitsVal groups.join : Rat)
            + (digitsVal frac : Rat) / (10 : Rat) ^ frac.length) :=
  ⟨continentalFloat_amount groups frac hgne hg hf,
   bundestagAmount_amount groups frac hgne hg hf,
   ukValueNumeric_amount groups frac hgne hg hf⟩

theorem claim_C5_locale_amounts_witness :
    continentalAmount [['1'], ['0', '0', '0']] ['0', '0'] = "1.000,00".data
    ∧ continentalFloat "1.000,00".data = some 1000
    ∧ bundestagAmount "1.000,00 Euro".data = 1000
    ∧ ukAmount [['5', '0', '0'], ['0', '0', '0']] ['0', '0'] = "£500,000.00".data
    ∧ ukValueNumeric "£500,000.00".data = some 500000 := by
  have h1 := claim_C5_locale_amounts [['1'], ['0', '0', '0']] ['0', '0']
    (by decide) (by decide) (by decide)
  have h2 := claim_C5_locale_amounts [['5', '0', '0'], ['0', '0', '0']] ['0', '0']
    (by decide) (by decide) (by decide)
  refine ⟨rfl, ?_, ?_, rfl, ?_⟩
  · rw [show "1.000,00".data = continentalAmount [['1'], ['0', '0', '0']] ['0', '0'] from rfl,
      h1.1]
    norm_num [show digitsVal ['1', '0', '0', '0'] = 1000 from rfl,
      show digitsVal ['0', '0'] = 0 from rfl]
  · rw [show "1.000,00 Euro".data
        = continentalAmount [['1'], ['0', '0', '0']] ['0', '0'] ++ ' ' :: "Euro".data from rfl,
      h1.2.1]
    norm_num [show digitsVal ['1', '0', '0', '0'] = 1000 from rfl,
      show digitsVal ['0', '0'] = 0 from rfl]
  · rw [show "£500,000.00".data = ukAmount [['5', '0', '0'], ['0', '0', '0']] ['0', '0'] from rfl,
      h2.2.2]
    norm_num [show digitsVal ['5', '0', '0', '0', '0', '0'] = 500000 from rfl,
      show digitsVal ['0', '0'] = 0 from rfl]


theorem pyStrip_mem {c : Char} {l : List Char} (h : c ∈ pyStrip l) : c ∈ l := by
  unfold pyStrip at h
  rw [List.mem_reverse] at h
  have h2 : c ∈ (l.dropWhile pyIsSpace).reverse := (List.dropWhile_sublist _).subset h
  rw [List.mem_reverse] at h2
  exact (List.dropWhile_sublist _).subset h2

theorem pyFloat_nonneg (l : List Char) (h : (pyStrip l).head? ≠ some '-') (v : Rat)
    (hv : pyFloat l = some v) : 0 ≤ v := by
  simp only [pyFloat] at hv
  rw [if_neg h] at hv
  by_cases h2 : (pyStrip l).head? = some '+' <;>
    [rw [if_pos h2] at hv; rw [if_neg h2] at hv] <;>
  · simp only [Option.map_eq_some'] at hv
    obtain ⟨m, hm, hmv⟩ := hv
    simp only [Bool.false_eq_true, if_false] at hmv
    subst hmv
    split at hm
    · split at hm
      · cases hm
      · rw [Option.some.injEq] at hm
        subst hm
        positivity
    · split at hm
      · rw [Option.some.injEq] at hm
        subst hm
        positivity
      · cases hm
    · cases hm

theorem euroAmountCapture_chars (t cap : List Char) (h : euroAmountCapture t = some cap) :
    ∀ c ∈ cap, isAmountChar c = true := by
  induction t with
  | nil => cases h
  | cons c rest ih =>
    rw [euroAmountCapture_cons] at h
    by_cases h1 : isAmountChar c = true
    · rw [if_pos h1] at h
      split at h
      · rw [Option.some.injEq] at h
        subst h
        intro x hx
        exact List.mem_takeWhile_imp hx
      · exact ih h
    · rw [if_neg h1] at h
      exact ih h

theorem bundestagAmount_nonneg (t : List Char) : 0 ≤ bundestagAmount t := by
  unfold bundestagAmount
  cases hc : euroAmountCapture t with
  | none => exact le_refl 0
  | some cap =>
    show 0 ≤ (continentalFloat cap).getD 0
    cases hf : continentalFloat cap with
    | none => simp
    | some v =>
      simp only [Option.getD_some]
      have hchars := euroAmountCapture_chars t cap hc
      unfold continentalFloat at hf
      refine pyFloat_nonneg _ ?_ v hf
      intro hh
      have hmem : '-' ∈ pyStrip (pyReplace [','] ['.'] (pyReplace ['.'] [] cap)) :=
        List.mem_of_mem_head? (by rw [hh]; rfl)
      have hmem2 := pyStrip_mem hmem
      rw [pyReplace_single_map, pyReplace_single_delete] at hmem2
      obtain ⟨x, hxmem, hxval⟩ := List.mem_map.1 hmem2
      have hxf := (List.mem_filter.1 hxmem).1
      have hxa := hchars x hxf
      by_cases hxc : x = ','
      · rw [if_pos hxc] at hxval
        exact absurd hxval (by decide)
      · rw [if_neg hxc] at hxval
        subst hxval
        exact absurd hxa (by decide)

theorem bundestagGo_nonneg (year : Int) (rows : List (List (List Char))) :
    ∀ (month : Option (List Char)), ∀ r ∈ bundestagGo year month rows, 0 ≤ r.amount := by
  induction rows with
  | nil =>
    intro month r hr
    cases hr
  | cons cells rest ih =>
    intro month r hr
    simp only [bundestagGo] at hr
    split at hr
    · exact ih _ r hr
    · split at hr
      · rcases List.mem_cons.1 hr with h | h
        · subst h
          exact bundestagAmount_nonneg _
        · exact ih _ r h
      · exact ih _ r hr

theorem eurAmountCapture_cons (c : Char) (rest : List Char) :
    eurAmountCapture (c :: rest)
      = if ("EUR".data).isPrefixOf (c :: rest) then
          if ((((c :: rest).drop 3).dropWhile pyIsSpace).takeWhile isAmountChar).isEmpty then
            eurAmountCapture rest
          else some ((((c :: rest).drop 3).dropWhile pyIsSpace).takeWhile isAmountChar)
        else eurAmountCapture rest := rfl

theorem eurAmountCapture_chars (t cap : List Char) (h : eurAmountCapture t = some cap) :
    ∀ c ∈ cap, isAmountChar c = true := by
  induction t with
  | nil => cases h
  | cons c rest ih =>
    rw [eurAmountCapture_cons] at h
    by_cases h1 : ("EUR".data).isPrefixOf (c :: rest) = true
    · rw [if_pos h1] at h
      split at h
      · exact ih h
      · rw [Option.some.injEq] at h
        subst h
        intro x hx
        exact List.mem_takeWhile_imp hx
    · rw [if_neg h1] at h
      exact ih h

theorem knabRowParse_nonneg (cy : Int) (cells : List (List Char)) (d : KnabRec)
    (h : knabRowParse cy cells = .ok (some d)) : 0 ≤ d.amount := by
  simp only [knabRowParse] at h
  split at h
  case isTrue hlen =>
    split at h
    case h_1 cap hcap =>
      split at h
      case h_1 => cases h
      case h_2 v hv =>
        simp only [Except.ok.injEq, Option.some.injEq] at h
        subst h
        show 0 ≤ v
        have hchars := eurAmountCapture_chars _ cap hcap
        refine pyFloat_nonneg _ ?_ v hv
        intro hh
        have hmem : '-' ∈ pyStrip (pyReplace [','] ['.'] cap) :=
          List.mem_of_mem_head? (by rw [hh]; rfl)
        have hmem2 := pyStrip_mem hmem
        rw [pyReplace_single_map] at hmem2
        obtain ⟨x, hxmem, hxval⟩ := List.mem_map.1 hmem2
        have hxa := hchars x hxmem
        by_cases hxc : x = ','
        · rw [if_pos hxc] at hxval
          exact absurd hxval (by decide)
        · rw [if_neg hxc] at hxval
          subst hxval
          exact absurd hxa (by decide)
    case h_2 hcap =>
      simp only [Except.ok.injEq, Option.some.injEq] at h
      subst h
      show (0 : Rat) ≤ 0
      exact le_refl 0
  case isFalse => cases h

theorem knabProcessRows_nonneg (cy : Int) : ∀ (rows : List (List (List Char)))
    (acc : List KnabRec), (∀ r ∈ acc, 0 ≤ r.amount) →
    ∀ acc', (knabProcessRows cy rows acc = .ok acc'
             ∨ knabProcessRows cy rows acc = .error acc') →
    ∀ r ∈ acc', 0 ≤ r.amount := by
  intro rows
  induction rows with
  | nil =>
    intro acc hacc acc' h r hr
    rcases h with h | h
    · simp only [knabProcessRows, Except.ok.injEq] at h
      subst h
      exact hacc r hr
    · simp only [knabProcessRows] at h
      cases h
  | cons row rest ih =>
    intro acc hacc acc' h r hr
    cases hrp : knabRowParse cy row with
    | error u =>
      have hstep : knabProcessRows cy (row :: rest) acc = .error acc := by
        simp [knabProcessRows, hrp]
      rw [hstep] at h
      rcases h with h | h
      · cases h
      · rw [Except.error.injEq] at h
        subst h
        exact hacc r hr
    | ok o =>
      cases o with
      | none =>
        have hstep : knabProcessRows cy (row :: rest) acc = knabProcessRows cy rest acc := by
          simp [knabProcessRows, hrp]
        rw [hstep] at h
        exact ih acc hacc acc' h r hr
      | some d =>
        have hstep : knabProcessRows cy (row :: rest) acc
            = knabProcessRows cy rest (acc ++ [d]) := by
          simp [knabProcessRows, hrp]
        rw [hstep] at h
        refine ih (acc ++ [d]) ?_ acc' h r hr
        intro x hx
        rcases List.mem_append.1 hx with hx | hx
        · exact hacc x hx
        · rw [List.mem_singleton] at hx
          rw [hx]
          exact knabRowParse_nonneg cy row d hrp

theorem knabGo_nonneg (fetch : Nat → KnabFetch) (cy : Int) : ∀ (fuel pageNum : Nat)
    (acc : List KnabRec) (tr : List KnabEvent), (∀ r ∈ acc, 0 ≤ r.amount) →
    ∀ r ∈ (knabGo fetch cy pageNum fuel acc tr).1, 0 ≤ r.amount := by
  intro fuel
  induction fuel with
  | zero =>
    intro pageNum acc tr hacc r hr
    exact hacc r hr
  | succ m ih =>
    intro pageNum acc tr hacc r hr
    cases hfe : fetch pageNum with
    | fail =>
      simp only [knabGo, hfe] at hr
      exact hacc r hr
    | page p =>
      simp only [knabGo, hfe] at hr
      by_cases h1 : (!p.hasTable) = true
      · rw [if_pos h1] at hr
        exact hacc r hr
      · rw [if_neg h1] at hr
        by_cases h2 : (!p.hasTbody) = true
        · rw [if_pos h2] at hr
          exact hacc r hr
        · rw [if_neg h2] at hr
          by_cases h3 : p.rows.isEmpty = true
          · rw [if_pos h3] at hr
            exact hacc r hr
          · rw [if_neg h3] at hr
            cases hpr : knabProcessRows cy p.rows acc with
            | error acc' =>
              simp only [hpr] at hr
              exact knabProcessRows_nonneg cy p.rows acc hacc acc' (Or.inr hpr) r hr
            | ok acc' =>
              simp only [hpr] at hr
              have hacc' : ∀ x ∈ acc', 0 ≤ x.amount :=
                knabProcessRows_nonneg cy p.rows acc hacc acc' (Or.inl hpr)
              by_cases h4 : (!p.hasPagination) = true
              · rw [if_pos h4] at hr
                exact hacc' r hr
              · rw [if_neg h4] at hr
                by_cases h5 : (!p.hasNextLink) = true
                · rw [if_pos h5] at hr
                  exact hacc' r hr
                · rw [if_neg h5] at hr
                  exact ih (pageNum + 1) acc' _ hacc' r hr

theorem austriaRow_unparseable (cm : AustriaColMap) (year : Int)
    (fields : List (List Char)) (h : austriaAmountOf cm fields = none) :
    austriaRow cm year fields = none := by
  unfold austriaRow
  repeat' split
  all_goals simp_all

/-- C6 (counterexample).  The claim says rows with unparseable amount text
are dropped (Austria excepted) and every retained amount is non-negative.
But the Bundestag scraper keeps a data row whose amount text matches no
amount pattern, fabricating amount `0` (`else: amount = 0`, app.py lines
325-327); the KNAB row parser does the same when the `EUR ...` capture
fails (app.py line 1019); and the Austrian parser retains a negative
amount unchanged. -/
theorem claim_C6_fabricated_counterexample :
    (scrape_bundestag_rows 2023
        [["Partei".data, "Betrag".data, "Spender".data, "Datum".data],
         ["SPD".data, "unbekannt".data, "Hans Maier".data, "01.02.2023".data]]).map
        (fun r => (r.amountText, r.amount))
      = [("unbekannt".data, (0 : Rat))]
    ∧ knabRowParse 2024
        ["Partija X".data, "Nauda".data, "nav summas".data, "Janis Berzins".data,
         "01.01.2024".data]
      = .ok (some ⟨"Janis Berzins".data, "Partija X".data, 0, "Cash".data,
          "01.01.2024".data, 2024, "Latvia KNAB", "Latvia"⟩)
    ∧ (parse_austria_csv "Partei;Name;Betrag\nSPO;Hans;-100".data 2023).map
        (fun r => (r.donor, r.amount))
      = [("Hans".data, (-100 : Rat))] :=
  ⟨by decide, rfl, by decide⟩

/-- C6 (amended).  What the code guarantees: every record produced by the
Bundestag row loop has a non-negative amount (an unparseable amount text is
retained with the fabricated amount `0`, never a negative value); every
record returned by the KNAB scrape has a non-negative amount (a failed
capture likewise fabricates `0`); and an Austrian row whose amount does not
parse is skipped, as documented.  Rows with unparseable amounts are NOT
dropped by the Bundestag and KNAB adapters, and Austria does not reject
negative amounts — see the counterexample. -/
theorem claim_C6_amended_amounts :
    (∀ (year : Int) (month : Option (List Char)) (rows : List (List (List Char))),
       ∀ r ∈ bundestagGo year month rows, 0 ≤ r.amount)
    ∧ (∀ (fetch : Nat → KnabFetch) (cy : Int) (maxPages : Nat),
       ∀ r ∈ (scrape_knab_donations fetch cy maxPages).1, 0 ≤ r.amount)
    ∧ (∀ (cm : AustriaColMap) (year : Int) (fields : List (List Char)),
       austriaAmountOf cm fields = none → austriaRow cm year fields = none) := by
  refine ⟨?_, ?_, ?_⟩
  · intro year month rows r hr
    exact bundestagGo_nonneg year rows month r hr
  · intro fetch cy mp r hr
    exact knabGo_nonneg fetch cy mp 1 [] []
      (fun x hx => absurd hx (List.not_mem_nil x)) r hr
  · exact austriaRow_unparseable

/-- A single-page KNAB fetch whose one row has no parsable amount. -/
def knabFetchC6 : Nat → KnabFetch := fun _ =>
  .page { hasTable := true, hasTbody := true,
          rows := [["Partija X".data, "Nauda".data, "nav summas".data,
                    "Janis Berzins".data, "01.01.2024".data]],
          hasPagination := false, hasNextLink := false }

theorem claim_C6_amended_amounts_witness :
    (0 : Rat) ≤ ((⟨2023, none, "SPD".data, 5000, "5000 Euro".data, "Hans".data,
      "Hans".data, "01.01.2023".data⟩ : BundestagRec)).amount
    ∧ (0 : Rat) ≤ ((⟨"Janis Berzins".data, "Partija X".data, 0, "Cash".data,
      "01.01.2024".data, 2024, "Latvia KNAB", "Latvia"⟩ : KnabRec)).amount
    ∧ austriaRow ⟨some 0, some 1, some 2, none, none, none⟩ 2023
        ["SPO".data, "Hans".data, "abc".data] = none :=
  ⟨claim_C6_amended_amounts.1 2023 none
      [["SPD".data, "5000 Euro".data, "Hans".data, "01.01.2023".data]] _ (by decide),
   claim_C6_amended_amounts.2.1 knabFetchC6 2024 10 _ (by decide),
   claim_C6_amended_amounts.2.2 ⟨some 0, some 1, some 2, none, none, none⟩ 2023
      ["SPO".data, "Hans".data, "abc".data] (by decide)⟩


/-- C7.  When a new search is submitted (button pressed, non-empty query),
the exclusion set is emptied before any result of the new search is
displayed or exported: the post-handler session has an empty exclusion set,
the whole run — final session and exported frames — is independent of the
prior session (so nothing excluded during a previous search can carry
over), and the exclusion set actually applied to the new results is built
by the checkbox panel starting from the empty set. -/
theorem claim_C7_exclusions_cleared (searchAll : String → List (String × DataFrame))
    (prior prior' : Session) (inp : RunInputs)
    (hb : inp.searchButton = true) (hq : inp.searchQuery ≠ "") :
    (searchHandler searchAll prior inp).excludedDonors = []
    ∧ runScript searchAll prior inp = runScript searchAll prior' inp
    ∧ (runScript searchAll prior inp).1.excludedDonors
        = exclusionPanelFold inp.includeChoice
            (sortByLower (collectDonors (searchAll inp.searchQuery))) [] := by
  have hs : ∀ p : Session, searchHandler searchAll p inp
      = ⟨[], searchAll inp.searchQuery, inp.searchQuery⟩ := by
    intro p
    unfold searchHandler
    rw [if_pos ⟨hb, hq⟩]
  refine ⟨by rw [hs prior], ?_, ?_⟩
  · unfold runScript
    rw [hs prior, hs prior']
  · unfold runScript
    rw [hs prior]
    by_cases hr : searchAll inp.searchQuery ≠ []
    · rw [if_pos ⟨hr, hq⟩]
    · have hsa : searchAll inp.searchQuery = [] := not_ne_iff.mp hr
      rw [if_neg (fun hcon => hr hcon.1), hsa]
      rfl

/-- A concrete search function, stale prior session, fresh prior session,
and run inputs for the C7 witness. -/
def searchAllC7 : String → List (String × DataFrame) := fun q =>
  if q = "" then []
  else [("uk", ⟨["DonorName"], [(0, [.str "Acme Corp"]), (1, [.str "Beta Ltd"])]⟩)]

def sessionC7a : Session :=
  ⟨["Stale Donor"], [("uk", ⟨["DonorName"], [(0, [.str "Old Result"])]⟩)], "old query"⟩

def sessionC7b : Session := ⟨[], [], ""⟩

def inpC7 : RunInputs := ⟨true, "acme", fun _ => true⟩

theorem claim_C7_exclusions_cleared_witness :
    (searchHandler searchAllC7 sessionC7a inpC7).excludedDonors = []
    ∧ runScript searchAllC7 sessionC7a inpC7 = runScript searchAllC7 sessionC7b inpC7
    ∧ (runScript searchAllC7 sessionC7a inpC7).1.excludedDonors
        = exclusionPanelFold inpC7.includeChoice
            (sortByLower (collectDonors (searchAllC7 inpC7.searchQuery))) [] :=
  claim_C7_exclusions_cleared searchAllC7 sessionC7a sessionC7b inpC7 rfl (by decide)


/-- The empty frame (no columns, no rows). -/
def dfEmpty : DataFrame := ⟨[], []⟩

theorem mem_ite_nil {c : Prop} [Decidable c] {x s : String} :
    (x ∈ (if c then ([] : List String) else [s])) ↔ ¬c ∧ x = s := by
  split <;> simp_all

/-- C9 (amended).  For every combination of per-jurisdiction frames the
summary block has exactly one row per jurisdiction for SIX jurisdictions —
UK, Germany, EU, Austria, Italy, Netherlands, in that order — not nine
(Latvia, Estonia and Lithuania never get a summary row, see the
counterexample); an empty UK frame yields the zero/placeholder row
`("UK", 0, -, -)`, a non-empty one yields its record count, its total in
the single currency `£`, and its date range; and a detail sheet is present
exactly for a non-empty frame (shown for the UK and Latvia sheets — Latvia
does get a detail sheet despite having no summary row).  Report creation
is a total function, so it never errors. -/
theorem claim_C9_amended_summary (companyName : String)
    (uk de au itl nld lv ee lt eu : DataFrame) :
    ((create_excel_report companyName uk de au itl nld lv ee lt eu).summary.map
        (fun r => r.jurisdiction))
      = ["UK", "Germany", "EU", "Austria", "Italy", "Netherlands"]
    ∧ (uk.rows.isEmpty = true →
        (⟨"UK", 0, .dash, .dash⟩ : SummaryRow)
          ∈ (create_excel_report companyName uk de au itl nld lv ee lt eu).summary)
    ∧ (uk.rows.isEmpty = false →
        (⟨"UK", uk.rows.length, .money .GBP (sumColumn uk "ValueNumeric"),
            colRange uk "AcceptedDate"⟩ : SummaryRow)
          ∈ (create_excel_report companyName uk de au itl nld lv ee lt eu).summary)
    ∧ ("UK - Electoral Commission"
          ∈ (create_excel_report companyName uk de au itl nld lv ee lt eu).sheets
        ↔ uk.rows.isEmpty = false)
    ∧ ("Latvia - KNAB"
          ∈ (create_excel_report companyName uk de au itl nld lv ee lt eu).sheets
        ↔ lv.rows.isEmpty = false)
    ∧ "Latvia" ∉ ((create_excel_report companyName uk de au itl nld lv ee lt eu).summary.map
        (fun r => r.jurisdiction)) := by
  have hjur : ∀ df : DataFrame,
      (ukSummary df).jurisdiction = "UK"
      ∧ (germanySummary df).jurisdiction = "Germany"
      ∧ (euSummary df).jurisdiction = "EU"
      ∧ (austriaSummary df).jurisdiction = "Austria"
      ∧ (italySummary df).jurisdiction = "Italy"
      ∧ (netherlandsSummary df).jurisdiction = "Netherlands" := by
    intro df
    unfold ukSummary germanySummary euSummary austriaSummary italySummary netherlandsSummary
    refine ⟨?_, ?_, ?_, ?_, ?_, ?_⟩ <;> (split <;> rfl)
  have hmap : ((create_excel_report companyName uk de au itl nld lv ee lt eu).summary.map
      (fun r => r.jurisdiction))
      = ["UK", "Germany", "EU", "Austria", "Italy", "Netherlands"] := by
    unfold create_excel_report
    simp only [List.map_cons, List.map_nil, (hjur uk).1, (hjur de).2.1, (hjur eu).2.2.1,
      (hjur au).2.2.2.1, (hjur itl).2.2.2.2.1, (hjur nld).2.2.2.2.2]
  refine ⟨hmap, ?_, ?_, ?_, ?_, ?_⟩
  · intro h
    have huk : ukSummary uk = ⟨"UK", 0, .dash, .dash⟩ := by
      unfold ukSummary
      rw [if_pos h]
    unfold create_excel_report
    simp [huk]
  · intro h
    have huk : ukSummary uk = ⟨"UK", uk.rows.length, .money .GBP (sumColumn uk "ValueNumeric"),
        colRange uk "AcceptedDate"⟩ := by
      unfold ukSummary
      rw [if_neg (by rw [h]; simp)]
    unfold create_excel_report
    simp [huk]
  · unfold create_excel_report
    simp only [List.mem_cons, List.mem_append, mem_ite_nil]
    simp [Bool.not_eq_true]
  · unfold create_excel_report
    simp only [List.mem_cons, List.mem_append, mem_ite_nil]
    simp [Bool.not_eq_true]
  · rw [hmap]
    decide

/-- C9 (counterexample).  The claim says the summary contains one row for
each of the NINE jurisdictions.  On any input (here: all frames empty) the
summary has exactly six rows, and no row for Latvia, Estonia or
Lithuania. -/
theorem claim_C9_six_jurisdictions_counterexample :
    ((create_excel_report "ACME" dfEmpty dfEmpty dfEmpty dfEmpty dfEmpty dfEmpty dfEmpty
        dfEmpty dfEmpty).summary.map (fun r => r.jurisdiction)
      = ["UK", "Germany", "EU", "Austria", "Italy", "Netherlands"])
    ∧ (create_excel_report "ACME" dfEmpty dfEmpty dfEmpty dfEmpty dfEmpty dfEmpty dfEmpty
        dfEmpty dfEmpty).summary.length = 6
    ∧ "Latvia" ∉ ((create_excel_report "ACME" dfEmpty dfEmpty dfEmpty dfEmpty dfEmpty
        dfEmpty dfEmpty dfEmpty dfEmpty).summary.map (fun r => r.jurisdiction))
    ∧ "Estonia" ∉ ((create_excel_report "ACME" dfEmpty dfEmpty dfEmpty dfEmpty dfEmpty
        dfEmpty dfEmpty dfEmpty dfEmpty).summary.map (fun r => r.jurisdiction))
    ∧ "Lithuania" ∉ ((create_excel_report "ACME" dfEmpty dfEmpty dfEmpty dfEmpty dfEmpty
        dfEmpty dfEmpty dfEmpty dfEmpty).summary.map (fun r => r.jurisdiction)) := by
  decide

/-- A one-row UK frame for the C9 witness. -/
def dfUkC9 : DataFrame :=
  ⟨["DonorName", "ValueNumeric", "AcceptedDate"],
   [(0, [.str "Acme Corp", .num 500000, .str "2024-01-01"])]⟩

theorem claim_C9_amended_summary_witness :
    ((⟨"UK", 0, .dash, .dash⟩ : SummaryRow)
      ∈ (create_excel_report "ACME" dfEmpty dfEmpty dfEmpty dfEmpty dfEmpty dfEmpty dfEmpty
          dfEmpty dfEmpty).summary)
    ∧ ((⟨"UK", dfUkC9.rows.length, .money .GBP (sumColumn dfUkC9 "ValueNumeric"),
          colRange dfUkC9 "AcceptedDate"⟩ : SummaryRow)
        ∈ (create_excel_report "ACME" dfUkC9 dfEmpty dfEmpty dfEmpty dfEmpty dfEmpty dfEmpty
            dfEmpty dfEmpty).summary)
    ∧ ("UK - Electoral Commission"
          ∈ (create_excel_report "ACME" dfUkC9 dfEmpty dfEmpty dfEmpty dfEmpty dfEmpty dfEmpty
              dfEmpty dfEmpty).sheets
        ↔ dfUkC9.rows.isEmpty = false)
    ∧ ("Latvia - KNAB"
          ∈ (create_excel_report "ACME" dfUkC9 dfEmpty dfEmpty dfEmpty dfEmpty dfEmpty dfEmpty
              dfEmpty dfEmpty).sheets
        ↔ dfEmpty.rows.isEmpty = false) :=
  ⟨(claim_C9_amended_summary "ACME" dfEmpty dfEmpty dfEmpty dfEmpty dfEmpty dfEmpty dfEmpty
      dfEmpty dfEmpty).2.1 (by decide),
   (claim_C9_amended_summary "ACME" dfUkC9 dfEmpty dfEmpty dfEmpty dfEmpty dfEmpty dfEmpty
      dfEmpty dfEmpty).2.2.1 (by decide),
   (claim_C9_amended_summary "ACME" dfUkC9 dfEmpty dfEmpty dfEmpty dfEmpty dfEmpty dfEmpty
      dfEmpty dfEmpty).2.2.2.1,
   (claim_C9_amended_summary "ACME" dfUkC9 dfEmpty dfEmpty dfEmpty dfEmpty dfEmpty dfEmpty
      dfEmpty dfEmpty).2.2.2.2.1⟩


/-- Apply a function to the payload of either constructor. -/
def exceptBoth (f : List KnabRec → List KnabRec) :
    Except (List KnabRec) (List KnabRec) → Except (List KnabRec) (List KnabRec)
  | .ok a => .ok (f a)
  | .error a => .error (f a)

theorem knabProcessRows_acc (cy : Int) (rows : List (List (List Char))) :
    ∀ (acc : List KnabRec),
    knabProcessRows cy rows acc
      = exceptBoth (fun r => acc ++ r) (knabProcessRows cy rows []) := by
  induction rows with
  | nil =>
    intro acc
    simp [knabProcessRows, exceptBoth]
  | cons row rest ih =>
    intro acc
    cases hrp : knabRowParse cy row with
    | error u =>
      simp [knabProcessRows, hrp, exceptBoth]
    | ok o =>
      cases o with
      | none =>
        simp only [knabProcessRows, hrp]
        exact ih acc
      | some d =>
        simp only [knabProcessRows, hrp]
        simp only [List.nil_append]
        rw [ih (acc ++ [d]), ih [d]]
        cases knabProcessRows cy rest [] <;>
          simp [exceptBoth, List.append_assoc]

/-- The records one page contributes when processed from an empty
accumulator (on a row error, the rows appended before it). -/
def pageRecs (fetch : Nat → KnabFetch) (cy : Int) (n : Nat) : List KnabRec :=
  match fetch n with
  | .fail => []
  | .page p =>
    match knabProcessRows cy p.rows [] with
    | .ok r => r
    | .error r => r

/-- Page `n` lets the loop continue: the fetch succeeds, the page has a
table with a non-empty body whose rows all parse, and a pagination block
with a next-page link is present. -/
def continuesAt (fetch : Nat → KnabFetch) (cy : Int) (n : Nat) : Bool :=
  match fetch n with
  | .fail => false
  | .page p =>
    p.hasTable && p.hasTbody && !p.rows.isEmpty
      && (match knabProcessRows cy p.rows [] with | .ok _ => true | .error _ => false)
      && p.hasPagination && p.hasNextLink

/-- The records accumulated from pages `1 .. k-1`, in page order. -/
def knabAccUpTo (fetch : Nat → KnabFetch) (cy : Int) : Nat → List KnabRec
  | 0 => []
  | 1 => []
  | n + 2 => knabAccUpTo fetch cy (n + 1) ++ pageRecs fetch cy (n + 1)

/-- The event trace of `k` attempted page fetches: pages requested in
increasing order with one sleep between consecutive fetches. -/
def knabTraceUpTo : Nat → List KnabEvent
  | 0 => []
  | 1 => [.fetch 1]
  | n + 2 => knabTraceUpTo (n + 1) ++ [.sleep, .fetch (n + 2)]

/-- The trace just before the fetch of page `k`. -/
def knabTracePending (k : Nat) : List KnabEvent :=
  if k ≤ 1 then [] else knabTraceUpTo (k - 1) ++ [.sleep]

theorem knabTracePending_fetch (k : Nat) (hk : 1 ≤ k) :
    knabTracePending k ++ [.fetch k] = knabTraceUpTo k := by
  match k, hk with
  | 1, _ => rfl
  | m + 2, _ =>
    show (knabTraceUpTo (m + 1) ++ [.sleep]) ++ [.fetch (m + 2)] = _
    rw [List.append_assoc]
    rfl

theorem knabGo_continue (fetch : Nat → KnabFetch) (cy : Int) (n fuel : Nat)
    (acc : List KnabRec) (tr : List KnabEvent)
    (h : continuesAt fetch cy n = true) :
    knabGo fetch cy n (fuel + 1) acc tr
      = knabGo fetch cy (n + 1) fuel (acc ++ pageRecs fetch cy n)
          (tr ++ [.fetch n, .sleep]) := by
  unfold continuesAt at h
  cases hf : fetch n with
  | fail =>
    rw [hf] at h
    cases h
  | page p =>
    rw [hf] at h
    simp only [Bool.and_eq_true] at h
    obtain ⟨⟨⟨⟨⟨h1, h2⟩, h3⟩, h4⟩, h5⟩, h6⟩ := h
    cases hb : knabProcessRows cy p.rows [] with
    | error r =>
      rw [hb] at h4
      cases h4
    | ok r =>
      simp only [knabGo, hf]
      rw [if_neg (by rw [h1]; simp), if_neg (by rw [h2]; simp),
        if_neg (by intro hcon; rw [hcon] at h3; exact absurd h3 (by decide))]
      rw [knabProcessRows_acc cy p.rows acc, hb]
      simp only [exceptBoth]
      rw [if_neg (by rw [h5]; simp), if_neg (by rw [h6]; simp)]
      have hrecs : pageRecs fetch cy n = r := by
        unfold pageRecs
        simp only [hf, hb]
      rw [hrecs, List.append_assoc]
      rfl

theorem knabAccUpTo_succ (fetch : Nat → KnabFetch) (cy : Int) (m : Nat) (hm : 1 ≤ m) :
    knabAccUpTo fetch cy (m + 1) = knabAccUpTo fetch cy m ++ pageRecs fetch cy m := by
  match m, hm with
  | n + 1, _ => rfl

theorem knabTracePending_succ (m : Nat) (hm : 1 ≤ m) :
    knabTracePending (m + 1) = knabTracePending m ++ [.fetch m, .sleep] := by
  match m, hm with
  | 1, _ => rfl
  | n + 2, _ => simp [knabTracePending, knabTraceUpTo]

theorem knabGo_prefix (fetch : Nat → KnabFetch) (cy : Int) :
    ∀ (k maxPages : Nat), 1 ≤ k → k ≤ maxPages →
    (∀ n, 1 ≤ n → n < k → continuesAt fetch cy n = true) →
    scrape_knab_donations fetch cy maxPages
      = knabGo fetch cy k (maxPages - (k - 1)) (knabAccUpTo fetch cy k)
          (knabTracePending k) := by
  intro k
  induction k with
  | zero =>
    intro maxPages h1
    exact absurd h1 (by decide)
  | succ m ih =>
    intro maxPages h1 h2 hpre
    by_cases hm : m = 0
    · subst hm
      unfold scrape_knab_donations
      rw [show maxPages - (1 - 1) = maxPages from by omega]
      rfl
    · have hm1 : 1 ≤ m := Nat.one_le_iff_ne_zero.mpr hm
      have ihm := ih maxPages hm1 (by omega) (fun n hn1 hn2 => hpre n hn1 (by omega))
      rw [ihm]
      rw [show (m + 1) - 1 = m from rfl, knabAccUpTo_succ fetch cy m hm1,
        knabTracePending_succ m hm1]
      rw [show maxPages - (m - 1) = (maxPages - m) + 1 from by omega]
      exact knabGo_continue fetch cy m (maxPages - m) _ _ (hpre m hm1 (by omega))

/-- C8.  The paginated KNAB scrape, for any page budget and any point `k`
reached after `k-1` continuing pages: pages are fetched in increasing
order with a sleep between consecutive page fetches (the trace is
`fetch 1, sleep, fetch 2, …, fetch k`); a fetch/parse failure at page `k`
stops the scrape and returns exactly the records accumulated from pages
`1 .. k-1` — not an empty set; a page with zero result rows stops it the
same way; and a page without a next-page link (or without a pagination
block) stops it after contributing its own records. -/
theorem claim_C8_pagination (fetch : Nat → KnabFetch) (cy : Int) (maxPages k : Nat)
    (hk1 : 1 ≤ k) (hkm : k ≤ maxPages)
    (hpre : ∀ n, 1 ≤ n → n < k → continuesAt fetch cy n = true) :
    (fetch k = .fail →
        scrape_knab_donations fetch cy maxPages
          = (knabAccUpTo fetch cy k, knabTraceUpTo k))
    ∧ (∀ p, fetch k = .page p → p.hasTable = true → p.hasTbody = true →
        p.rows.isEmpty = true →
        scrape_knab_donations fetch cy maxPages
          = (knabAccUpTo fetch cy k, knabTraceUpTo k))
    ∧ (∀ p r, fetch k = .page p → p.hasTable = true → p.hasTbody = true →
        p.rows.isEmpty = false →
        knabProcessRows cy p.rows (knabAccUpTo fetch cy k) = .ok r →
        (p.hasPagination = false ∨ p.hasNextLink = false) →
        scrape_knab_donations fetch cy maxPages = (r, knabTraceUpTo k)) := by
  have hpc := knabGo_prefix fetch cy k maxPages hk1 hkm hpre
  obtain ⟨m, hm⟩ : ∃ m, maxPages - (k - 1) = m + 1 := ⟨maxPages - k, by omega⟩
  rw [hm] at hpc
  refine ⟨?_, ?_, ?_⟩
  · intro hf
    rw [hpc]
    simp only [knabGo, hf]
    rw [knabTracePending_fetch k hk1]
  · intro p hf h1 h2 h3
    rw [hpc]
    simp only [knabGo, hf]
    rw [if_neg (by rw [h1]; simp), if_neg (by rw [h2]; simp), if_pos h3]
    rw [knabTracePending_fetch k hk1]
  · intro p r hf h1 h2 h3 hok hnl
    rw [hpc]
    simp only [knabGo, hf]
    rw [if_neg (by rw [h1]; simp), if_neg (by rw [h2]; simp),
      if_neg (by intro hcon; rw [h3] at hcon; exact absurd hcon (by decide))]
    simp only [hok]
    rcases hnl with hnl | hnl
    · rw [if_pos (by rw [hnl]; rfl)]
      rw [knabTracePending_fetch k hk1]
    · by_cases hpp : p.hasPagination = true
      · rw [if_neg (by rw [hpp]; simp), if_pos (by rw [hnl]; rfl)]
        rw [knabTracePending_fetch k hk1]
      · rw [if_pos (by rw [Bool.not_eq_true] at hpp; rw [hpp]; rfl)]
        rw [knabTracePending_fetch k hk1]

/-- A KNAB page with one parsable row and a next-page link, and a fetch
that succeeds on pages 1-2 and raises on page 3 (the spec's end-to-end
scenario). -/
def knabPageEx : KnabPage :=
  ⟨true, true, [["Partija X".data, "Nauda".data, "EUR 500".data, "Janis Berzins".data,
    "01.01.2025".data]], true, true⟩

def knabFetchEx : Nat → KnabFetch := fun n => if n ≤ 2 then .page knabPageEx else .fail

theorem claim_C8_pagination_witness :
    scrape_knab_donations knabFetchEx 2026 10
      = (knabAccUpTo knabFetchEx 2026 3, knabTraceUpTo 3)
    ∧ (knabAccUpTo knabFetchEx 2026 3).length = 2
    ∧ knabTraceUpTo 3 = [.fetch 1, .sleep, .fetch 2, .sleep, .fetch 3] :=
  ⟨(claim_C8_pagination knabFetchEx 2026 10 3 (by decide) (by decide)
      (fun n h1 h2 => by interval_cases n <;> decide)).1 rfl,
   by decide, by decide⟩

end Croesus
